import Mathlib

/-!
# FormiAI: the configuration pipeline of `src/App.jsx` and `src/App copy.jsx`

The two source files are React components.  Each keeps its configuration in
component state and changes it through three handlers:

* `handleChange` and `handleGenerate` (only in `App copy.jsx`): manual edits
  of the draft `config`, and the commit of the draft into `displayConfig`;
* `handleAiGenerate` (both files): one request to a text-generation service,
  whose JSON answer is merged into the configuration.

The handlers are embedded as pure functions on an explicit component state.
JavaScript values are embedded as the type `JVal`; the language built-ins the
handlers call (`parseFloat`, `JSON.parse`, `JSON.stringify`, property access,
spread, truthiness, string conversion) are embedded next to them.

Conventions of the embedding:

* a finite number is kept as the exact decimal `mant * 10 ^ exp` that its
  numeral denotes (no rounding to binary64, no negative zero);
* a string is a sequence of Unicode scalar values (no lone surrogates);
* the order of the properties of an object is the order of insertion;
* the message of an error raised by a built-in (`SyntaxError`, `TypeError`) is
  engine specific and is kept as a fixed text.
-/

namespace FormiAI

/-! ## JavaScript values -/

/-- A JavaScript number: `NaN`, an infinity, or the finite decimal
`mant * 10 ^ exp`, where `mant` has no trailing zero digit and zero is
`fin 0 0`. -/
inductive JNum where
  | nan
  | inf (neg : Bool)
  | fin (mant : Int) (exp : Int)
deriving DecidableEq

/-- A JavaScript value of the kinds the handlers meet: the primitives, arrays
and plain objects (an object is the list of its own enumerable properties). -/
inductive JVal where
  | undefined
  | null
  | bool (b : Bool)
  | num (n : JNum)
  | str (s : String)
  | arr (xs : List JVal)
  | obj (kvs : List (String × JVal))

/-- The own enumerable properties of a plain object, in insertion order. -/
abbrev Obj := List (String × JVal)

mutual
/-- Decides the equality of two values. -/
def JVal.decEq : (a b : JVal) → Decidable (a = b)
  | .undefined, .undefined => isTrue rfl
  | .undefined, .null => isFalse nofun
  | .undefined, .bool _ => isFalse nofun
  | .undefined, .num _ => isFalse nofun
  | .undefined, .str _ => isFalse nofun
  | .undefined, .arr _ => isFalse nofun
  | .undefined, .obj _ => isFalse nofun
  | .null, .undefined => isFalse nofun
  | .null, .null => isTrue rfl
  | .null, .bool _ => isFalse nofun
  | .null, .num _ => isFalse nofun
  | .null, .str _ => isFalse nofun
  | .null, .arr _ => isFalse nofun
  | .null, .obj _ => isFalse nofun
  | .bool _, .undefined => isFalse nofun
  | .bool _, .null => isFalse nofun
  | .bool x, .bool y =>
      if h : x = y then isTrue (congrArg JVal.bool h)
      else isFalse (fun e => h (JVal.bool.inj e))
  | .bool _, .num _ => isFalse nofun
  | .bool _, .str _ => isFalse nofun
  | .bool _, .arr _ => isFalse nofun
  | .bool _, .obj _ => isFalse nofun
  | .num _, .undefined => isFalse nofun
  | .num _, .null => isFalse nofun
  | .num _, .bool _ => isFalse nofun
  | .num x, .num y =>
      if h : x = y then isTrue (congrArg JVal.num h)
      else isFalse (fun e => h (JVal.num.inj e))
  | .num _, .str _ => isFalse nofun
  | .num _, .arr _ => isFalse nofun
  | .num _, .obj _ => isFalse nofun
  | .str _, .undefined => isFalse nofun
  | .str _, .null => isFalse nofun
  | .str _, .bool _ => isFalse nofun
  | .str _, .num _ => isFalse nofun
  | .str x, .str y =>
      if h : x = y then isTrue (congrArg JVal.str h)
      else isFalse (fun e => h (JVal.str.inj e))
  | .str _, .arr _ => isFalse nofun
  | .str _, .obj _ => isFalse nofun
  | .arr _, .undefined => isFalse nofun
  | .arr _, .null => isFalse nofun
  | .arr _, .bool _ => isFalse nofun
  | .arr _, .num _ => isFalse nofun
  | .arr _, .str _ => isFalse nofun
  | .arr x, .arr y =>
      match JVal.decEqList x y with
      | isTrue h => isTrue (congrArg JVal.arr h)
      | isFalse h => isFalse (fun e => h (JVal.arr.inj e))
  | .arr _, .obj _ => isFalse nofun
  | .obj _, .undefined => isFalse nofun
  | .obj _, .null => isFalse nofun
  | .obj _, .bool _ => isFalse nofun
  | .obj _, .num _ => isFalse nofun
  | .obj _, .str _ => isFalse nofun
  | .obj _, .arr _ => isFalse nofun
  | .obj x, .obj y =>
      match JVal.decEqKvs x y with
      | isTrue h => isTrue (congrArg JVal.obj h)
      | isFalse h => isFalse (fun e => h (JVal.obj.inj e))
/-- Decides the equality of two lists of values. -/
def JVal.decEqList : (a b : List JVal) → Decidable (a = b)
  | [], [] => isTrue rfl
  | [], _ :: _ => isFalse nofun
  | _ :: _, [] => isFalse nofun
  | x :: xs, y :: ys =>
      match JVal.decEq x y, JVal.decEqList xs ys with
      | isTrue h, isTrue t => isTrue (congrArg₂ List.cons h t)
      | isFalse h, _ => isFalse (fun e => h (List.cons.inj e).1)
      | _, isFalse t => isFalse (fun e => t (List.cons.inj e).2)
/-- Decides the equality of two property lists. -/
def JVal.decEqKvs : (a b : List (String × JVal)) → Decidable (a = b)
  | [], [] => isTrue rfl
  | [], _ :: _ => isFalse nofun
  | _ :: _, [] => isFalse nofun
  | (k, x) :: xs, (l, y) :: ys =>
      if hk : k = l then
        match JVal.decEq x y, JVal.decEqKvs xs ys with
        | isTrue h, isTrue t =>
            isTrue (congrArg₂ List.cons (congrArg₂ Prod.mk hk h) t)
        | isFalse h, _ => isFalse (fun e => h (Prod.mk.inj (List.cons.inj e).1).2)
        | _, isFalse t => isFalse (fun e => t (List.cons.inj e).2)
      else isFalse (fun e => hk (Prod.mk.inj (List.cons.inj e).1).1)
end

instance : DecidableEq JVal := JVal.decEq

deriving instance DecidableEq for Except

/-! ## Numbers -/

/-- Drops the trailing zero digits of a non-zero mantissa, raising the
exponent by one for each. -/
def stripZeros : Nat → Int → Int → Int × Int
  | 0, m, e => (m, e)
  | fuel + 1, m, e =>
      if m ≠ 0 ∧ m % 10 = 0 then stripZeros fuel (m / 10) (e + 1) else (m, e)

/-- The number `m * 10 ^ e`, in the normal form of `JNum.fin`. -/
def JNum.ofDecimal (m e : Int) : JNum :=
  if m = 0 then .fin 0 0
  else .fin (stripZeros m.natAbs m e).1 (stripZeros m.natAbs m e).2

/-- Whether `m1 * 10 ^ e1 ≤ m2 * 10 ^ e2`, computed on integers after bringing
both sides to the smaller exponent. -/
def decLe (m1 e1 m2 e2 : Int) : Bool :=
  decide (m1 * 10 ^ (e1 - min e1 e2).toNat ≤ m2 * 10 ^ (e2 - min e1 e2).toNat)

/-- Order test `a ≤ b` of JavaScript (false when either side is `NaN`). -/
def JNum.le : JNum → JNum → Bool
  | .nan, _ => false
  | _, .nan => false
  | .inf true, _ => true
  | _, .inf false => true
  | .inf false, _ => false
  | _, .inf true => false
  | .fin m1 e1, .fin m2 e2 => decLe m1 e1 m2 e2

/-- The decimal digits of a natural number, most significant first. -/
def natDigits (n : Nat) : List Char := (Nat.toDigits 10 n)

/-- `Number::toString` on the digits `ds` of the mantissa (`k = ds.length`)
and the position `n` of the decimal point (the value is `0.ds * 10 ^ n`). -/
def formatDigits (ds : List Char) (n : Int) : List Char :=
  let k : Int := ds.length
  if k ≤ n ∧ n ≤ 21 then
    ds ++ List.replicate (n - k).toNat '0'
  else if 0 < n ∧ n ≤ 21 then
    ds.take n.toNat ++ '.' :: ds.drop n.toNat
  else if -6 < n ∧ n ≤ 0 then
    '0' :: '.' :: (List.replicate (-n).toNat '0' ++ ds)
  else
    let e := n - 1
    let tail := 'e' :: (if 0 ≤ e then '+' else '-') :: natDigits e.natAbs
    match ds with
    | [] => tail
    | [d] => d :: tail
    | d :: rest => d :: '.' :: (rest ++ tail)

/-- `Number::toString` (radix 10). -/
def JNum.toStr : JNum → String
  | .nan => "NaN"
  | .inf false => "Infinity"
  | .inf true => "-Infinity"
  | .fin m e =>
      if m = 0 then "0"
      else
        let ds := natDigits m.natAbs
        let body := formatDigits ds (ds.length + e)
        String.mk (if m < 0 then '-' :: body else body)

/-! ## Conversions and property access -/

/-- `ToBoolean`: the falsy values are `undefined`, `null`, `false`, `0`, `NaN`
and the empty string. -/
def JVal.truthy : JVal → Bool
  | .undefined => false
  | .null => false
  | .bool b => b
  | .num .nan => false
  | .num (.inf _) => true
  | .num (.fin m _) => decide (m ≠ 0)
  | .str s => decide (s ≠ "")
  | .arr _ => true
  | .obj _ => true

/-- Whether the value is `null` or `undefined`. -/
def JVal.nullish : JVal → Bool
  | .undefined => true
  | .null => true
  | _ => false

/-- The text of the `TypeError` that `ToString` raises on an object that has
no usable `toString` and `valueOf`. -/
def toPrimitiveErrorMessage : String := "Cannot convert object to primitive value"

mutual
/-- `ToString`: primitives by their rules; an array as its elements joined by
commas (`Array.prototype.toString`); a plain object as `[object Object]`
(`Object.prototype.toString`), unless it has an own property `toString`: that
property, a data value, shadows the method, `Object.prototype.valueOf` returns
the object itself, and OrdinaryToPrimitive raises a `TypeError`. -/
def JVal.toStr : JVal → Except String String
  | .undefined => .ok "undefined"
  | .null => .ok "null"
  | .bool b => .ok (if b then "true" else "false")
  | .num n => .ok n.toStr
  | .str s => .ok s
  | .arr xs => JVal.join xs
  | .obj kvs =>
      if (kvs.lookup "toString").isSome then .error toPrimitiveErrorMessage
      else .ok "[object Object]"
termination_by structural v => v
/-- `Array.prototype.join` with the comma separator: `null` and `undefined`
elements give the empty string, the other elements are converted in order,
and the first conversion that raises an error ends the join. -/
def JVal.join : List JVal → Except String String
  | [] => .ok ""
  | x :: rest =>
      match (match x with
        | .undefined => Except.ok ""
        | .null => Except.ok ""
        | v => JVal.toStr v) with
      | .error e => .error e
      | .ok s =>
          match JVal.join rest with
          | .error e => .error e
          | .ok t =>
              .ok (s ++ (match rest with
                | [] => ""
                | _ :: _ => ",") ++ t)
termination_by structural xs => xs
end

/-- Numbers the elements of a list from `i` on, as index properties. -/
def indexed {α : Type} (f : α → JVal) : Nat → List α → Obj
  | _, [] => []
  | i, x :: xs => (toString i, f x) :: indexed f (i + 1) xs

/-- The own enumerable string-keyed properties of a value: the properties of
an object, the elements of an array and the characters of a string under their
indices, nothing for the other primitives. -/
def JVal.ownProps : JVal → Obj
  | .obj kvs => kvs
  | .arr xs => indexed id 0 xs
  | .str s => indexed (fun c => JVal.str (String.singleton c)) 0 s.data
  | _ => []

/-- Reads property `k` of a property list: `undefined` when absent. -/
def Obj.get (o : Obj) (k : String) : JVal :=
  match o.lookup k with
  | some v => v
  | none => .undefined

/-- Reads property `k` of a value that is neither `null` nor `undefined`.
Only data properties are modelled; none of the keys the handlers read
(`candidates`, `0`, `content`, `parts`, `text`, `error`, `message`, `shape`,
`color`, `material`) is a member of a built-in prototype. -/
def JVal.getProp (v : JVal) (k : String) : JVal := Obj.get v.ownProps k

/-- Member access `v.k`: a `TypeError` on `null` and `undefined`. -/
def JVal.member (v : JVal) (k : String) : Except String JVal :=
  if v.nullish then
    .error ("Cannot read properties of "
      ++ (match v with
        | .null => "null"
        | _ => "undefined")
      ++ " (reading '" ++ k ++ "')")
  else .ok (v.getProp k)

/-- Optional chaining `v?.k`: `undefined` on `null` and `undefined`. -/
def JVal.optMember (v : JVal) (k : String) : JVal :=
  if v.nullish then .undefined else v.getProp k

/-- Defines property `k` with value `v`: an existing property keeps its place,
a new one is added at the end. -/
def Obj.set (k : String) (v : JVal) : Obj → Obj
  | [] => [(k, v)]
  | (k1, v1) :: rest =>
      if k1 = k then (k1, v) :: rest else (k1, v1) :: Obj.set k v rest

/-- Object spread `{...o, ...src}`: every own enumerable property of `src`
is defined on a copy of `o`, in order. -/
def Obj.spread (o : Obj) (src : JVal) : Obj :=
  src.ownProps.foldl (fun acc kv => Obj.set kv.1 kv.2 acc) o

/-- The object that results from defining the given properties one after the
other: of two properties with the same key the later value stays, at the
place of the first. -/
def Obj.ofEntries (kvs : List (String × JVal)) : Obj :=
  kvs.foldl (fun acc kv => Obj.set kv.1 kv.2 acc) []

/-- The operator `a || b`. -/
def JVal.or (a b : JVal) : JVal := if a.truthy then a else b

/-! ## `parseFloat` -/

/-- The code points `TrimString` removes: WhiteSpace and LineTerminator. -/
def isJsSpace (c : Char) : Bool :=
  decide (c.toNat = 9 ∨ c.toNat = 10 ∨ c.toNat = 11 ∨ c.toNat = 12 ∨ c.toNat = 13
    ∨ c.toNat = 32 ∨ c.toNat = 160 ∨ c.toNat = 0x1680
    ∨ (0x2000 ≤ c.toNat ∧ c.toNat ≤ 0x200A)
    ∨ c.toNat = 0x2028 ∨ c.toNat = 0x2029 ∨ c.toNat = 0x202F ∨ c.toNat = 0x205F
    ∨ c.toNat = 0x3000 ∨ c.toNat = 0xFEFF)

/-- The value of a sequence of decimal digits. -/
def digitsVal (ds : List Char) : Nat :=
  ds.foldl (fun acc c => 10 * acc + (c.toNat - 48)) 0

/-- An optional sign: whether it is a minus, and the rest. -/
def takeSign (plusAllowed : Bool) : List Char → Bool × List Char
  | c :: cs =>
      if c = '-' then (true, cs)
      else if c = '+' ∧ plusAllowed then (false, cs)
      else (false, c :: cs)
  | [] => (false, [])

/-- The ExponentPart of a StrDecimalLiteral at the head of the input, when
there is a well-formed one: its value, and the rest. -/
def exponentPart : List Char → Option (Int × List Char)
  | c :: cs =>
      if c = 'e' ∨ c = 'E' then
        let sg := takeSign true cs
        let ds := sg.2.span Char.isDigit
        if ds.1 = [] then none
        else some (if sg.1 then -(digitsVal ds.1 : Int) else digitsVal ds.1, ds.2)
      else none
  | [] => none

/-- The built-in `parseFloat` on a string: leading white space is skipped,
the longest prefix that is a StrDecimalLiteral is read, `NaN` when there is
none. -/
def parseFloat (s : String) : JNum :=
  let sg := takeSign true (s.data.dropWhile isJsSpace)
  if "Infinity".data.isPrefixOf sg.2 then .inf sg.1
  else
    let ip := sg.2.span Char.isDigit
    let fp := match ip.2 with
      | c :: r => if c = '.' then r.span Char.isDigit else ([], ip.2)
      | [] => ([], [])
    if ip.1 = [] ∧ fp.1 = [] then .nan
    else
      let e : Int := match exponentPart fp.2 with
        | some (e, _) => e
        | none => 0
      let m : Int := digitsVal (ip.1 ++ fp.1)
      JNum.ofDecimal (if sg.1 then -m else m) (e - fp.1.length)

/-! ## `JSON.parse` -/

/-- JSON white space. -/
def isJsonWs (c : Char) : Bool :=
  decide (c = ' ' ∨ c = '\t' ∨ c = '\n' ∨ c = '\r')

/-- Skips JSON white space. -/
def skipWs (cs : List Char) : List Char := cs.dropWhile isJsonWs

/-- The value of a hexadecimal digit. -/
def hexVal (c : Char) : Option Nat :=
  if '0' ≤ c ∧ c ≤ '9' then some (c.toNat - 48)
  else if 'a' ≤ c ∧ c ≤ 'f' then some (c.toNat - 87)
  else if 'A' ≤ c ∧ c ≤ 'F' then some (c.toNat - 55)
  else none

/-- The value of four hexadecimal digits. -/
def hex4 (a b c d : Char) : Option Nat :=
  match hexVal a, hexVal b, hexVal c, hexVal d with
  | some x, some y, some z, some w => some (((x * 16 + y) * 16 + z) * 16 + w)
  | _, _, _, _ => none

/-- The character a one-letter escape stands for. -/
def unescape (c : Char) : Option Nat :=
  if c = '"' then some 34
  else if c = '\\' then some 92
  else if c = '/' then some 47
  else if c = 'b' then some 8
  else if c = 'f' then some 12
  else if c = 'n' then some 10
  else if c = 'r' then some 13
  else if c = 't' then some 9
  else none

/-- The UTF-16 code units of a character. -/
def utf16Units (c : Char) : List Nat :=
  if c.toNat < 0x10000 then [c.toNat]
  else [0xD800 + (c.toNat - 0x10000) / 0x400, 0xDC00 + (c.toNat - 0x10000) % 0x400]

/-- The character of a single code unit; a lone surrogate, which a string of
this embedding cannot hold, is replaced by U+FFFD. -/
def unitChar (u : Nat) : Char :=
  if 0xD800 ≤ u ∧ u ≤ 0xDFFF then Char.ofNat 0xFFFD else Char.ofNat u

/-- Reads a sequence of UTF-16 code units as characters, joining surrogate
pairs. -/
def utf16Decode : List Nat → List Char
  | [] => []
  | [u] => [unitChar u]
  | hi :: lo :: rest =>
      if 0xD800 ≤ hi ∧ hi ≤ 0xDBFF ∧ 0xDC00 ≤ lo ∧ lo ≤ 0xDFFF then
        Char.ofNat (0x10000 + (hi - 0xD800) * 0x400 + (lo - 0xDC00))
          :: utf16Decode rest
      else unitChar hi :: utf16Decode (lo :: rest)

/-- The body of a JSON string after its opening quote, up to and including
the closing quote: its code units, and the rest of the input. -/
def parseUnits : List Char → Option (List Nat × List Char)
  | [] => none
  | c :: cs =>
      if c = '"' then some ([], cs)
      else if c = '\\' then
        match cs with
        | [] => none
        | e :: rest =>
            if e = 'u' then
              match rest with
              | a :: b :: c1 :: d :: rest1 =>
                  match hex4 a b c1 d, parseUnits rest1 with
                  | some u, some (us, r) => some (u :: us, r)
                  | _, _ => none
              | _ => none
            else
              match unescape e, parseUnits rest with
              | some u, some (us, r) => some (u :: us, r)
              | _, _ => none
      else if c.toNat < 0x20 then none
      else
        match parseUnits cs with
        | some (us, r) => some (utf16Units c ++ us, r)
        | none => none

/-- A JSON string after its opening quote. -/
def parseString (cs : List Char) : Option (String × List Char) :=
  match parseUnits cs with
  | some (us, r) => some (String.mk (utf16Decode us), r)
  | none => none

/-- The optional exponent of a JSON number: its value (zero when absent), and
the rest. An `e` that no digit follows is an error. -/
def jsonExponent : List Char → Option (Int × List Char)
  | c :: cs =>
      if c = 'e' ∨ c = 'E' then
        let sg := takeSign true cs
        let ds := sg.2.span Char.isDigit
        if ds.1 = [] then none
        else some (if sg.1 then -(digitsVal ds.1 : Int) else digitsVal ds.1, ds.2)
      else some (0, c :: cs)
  | [] => some (0, [])

/-- A JSON number: an optional minus, an integer part without leading zero,
an optional fraction, an optional exponent. -/
def parseNumber (cs : List Char) : Option (JNum × List Char) :=
  let sg := takeSign false cs
  let ip := sg.2.span Char.isDigit
  if ip.1 = [] ∨ (1 < ip.1.length ∧ ip.1.head? = some '0') then none
  else
    let fp : Option (List Char × List Char) := match ip.2 with
      | c :: r =>
          if c = '.' then
            (if (r.span Char.isDigit).1 = [] then none else some (r.span Char.isDigit))
          else some ([], ip.2)
      | [] => some ([], [])
    match fp with
    | none => none
    | some (fd, r1) =>
        match jsonExponent r1 with
        | none => none
        | some (e, r2) =>
            let m : Int := digitsVal (ip.1 ++ fd)
            some (JNum.ofDecimal (if sg.1 then -m else m) (e - fd.length), r2)

mutual
/-- A JSON value at the head of the input (white space already skipped). The
first argument bounds the number of nested calls. Of two members of an object
with the same key the later one stays. -/
def parseValue : Nat → List Char → Option (JVal × List Char)
  | 0, _ => none
  | fuel + 1, cs =>
      match cs with
      | [] => none
      | c :: r =>
          if c = '"' then
            match parseString r with
            | some (s, r1) => some (.str s, r1)
            | none => none
          else if c = '{' then
            match skipWs r with
            | [] => none
            | c1 :: r1 =>
                if c1 = '}' then some (.obj [], r1)
                else
                  match parseMembers fuel (c1 :: r1) with
                  | some (kvs, r2) => some (.obj (Obj.ofEntries kvs), r2)
                  | none => none
          else if c = '[' then
            match skipWs r with
            | [] => none
            | c1 :: r1 =>
                if c1 = ']' then some (.arr [], r1)
                else
                  match parseElems fuel (c1 :: r1) with
                  | some (xs, r2) => some (.arr xs, r2)
                  | none => none
          else if "true".data.isPrefixOf cs then some (.bool true, cs.drop 4)
          else if "false".data.isPrefixOf cs then some (.bool false, cs.drop 5)
          else if "null".data.isPrefixOf cs then some (.null, cs.drop 4)
          else
            match parseNumber cs with
            | some (n, r1) => some (.num n, r1)
            | none => none
/-- The elements of a JSON array from the head of an element on, up to and
including the closing bracket. -/
def parseElems : Nat → List Char → Option (List JVal × List Char)
  | 0, _ => none
  | fuel + 1, cs =>
      match parseValue fuel cs with
      | none => none
      | some (v, r) =>
          match skipWs r with
          | [] => none
          | c :: r1 =>
              if c = ',' then
                match parseElems fuel (skipWs r1) with
                | some (vs, r2) => some (v :: vs, r2)
                | none => none
              else if c = ']' then some ([v], r1)
              else none
/-- The members of a JSON object from the quote of a key on, up to and
including the closing brace, in the order of the text. -/
def parseMembers : Nat → List Char → Option (List (String × JVal) × List Char)
  | 0, _ => none
  | fuel + 1, cs =>
      match cs with
      | [] => none
      | q :: r =>
          if q = '"' then
            match parseString r with
            | none => none
            | some (k, r1) =>
                match skipWs r1 with
                | [] => none
                | c :: r2 =>
                    if c = ':' then
                      match parseValue fuel (skipWs r2) with
                      | none => none
                      | some (v, r3) =>
                          match skipWs r3 with
                          | [] => none
                          | c1 :: r4 =>
                              if c1 = ',' then
                                match parseMembers fuel (skipWs r4) with
                                | some (kvs, r5) => some ((k, v) :: kvs, r5)
                                | none => none
                              else if c1 = '}' then some ([(k, v)], r4)
                              else none
                    else none
          else none
end

/-- The text of the `SyntaxError` that `JSON.parse` and `response.json()`
raise. -/
def syntaxErrorMessage : String := "Unexpected token in JSON"

/-- The built-in `JSON.parse` on a string: one value between optional white
space, a `SyntaxError` otherwise. -/
def JSON.parse (text : String) : Except String JVal :=
  match parseValue (2 * text.length + 2) (skipWs text.data) with
  | some (v, r) => if skipWs r = [] then .ok v else .error syntaxErrorMessage
  | none => .error syntaxErrorMessage

/-- The call `JSON.parse(text)` on an arbitrary value: the value is converted
to a string, which may raise a `TypeError`, and the string is parsed. -/
def JSON.parseOf (text : JVal) : Except String JVal :=
  match text.toStr with
  | .ok s => JSON.parse s
  | .error e => .error e

/-! ## `JSON.stringify` -/

/-- The lower-case hexadecimal digit of `n < 16`. -/
def hexDigit (n : Nat) : Char :=
  if n < 10 then Char.ofNat (48 + n) else Char.ofNat (87 + n)

/-- The text of one character inside a JSON string (QuoteJSONString). -/
def quoteChar (c : Char) : List Char :=
  if c = '"' then ['\\', '"']
  else if c = '\\' then ['\\', '\\']
  else if c.toNat = 8 then ['\\', 'b']
  else if c.toNat = 12 then ['\\', 'f']
  else if c.toNat = 10 then ['\\', 'n']
  else if c.toNat = 13 then ['\\', 'r']
  else if c.toNat = 9 then ['\\', 't']
  else if c.toNat < 0x20 then
    ['\\', 'u', '0', '0', hexDigit (c.toNat / 16), hexDigit (c.toNat % 16)]
  else [c]

/-- The text of a sequence of characters inside a JSON string. -/
def quoteChars : List Char → List Char
  | [] => []
  | c :: cs => quoteChar c ++ quoteChars cs

/-- The JSON text of a string: QuoteJSONString. -/
def quote (s : String) : List Char := '"' :: (quoteChars s.data ++ ['"'])

mutual
/-- The JSON text of a value (SerializeJSONProperty); `undefined`, which is
reached only as an array element, is written `null`, as are `NaN` and the
infinities. -/
def stringifyVal : JVal → List Char
  | .undefined => "null".data
  | .null => "null".data
  | .bool b => if b then "true".data else "false".data
  | .num n =>
      match n with
      | .fin _ _ => n.toStr.data
      | _ => "null".data
  | .str s => quote s
  | .arr xs => '[' :: (stringifyElems xs ++ [']'])
  | .obj kvs => '{' :: (stringifyMembers true kvs ++ ['}'])
termination_by structural v => v
/-- The elements of an array, separated by commas. -/
def stringifyElems : List JVal → List Char
  | [] => []
  | x :: rest =>
      stringifyVal x
        ++ (match rest with
          | [] => []
          | _ :: _ => [','])
        ++ stringifyElems rest
termination_by structural xs => xs
/-- The members of an object, separated by commas; a property whose value is
`undefined` is left out. The flag says that no member was written yet. -/
def stringifyMembers (first : Bool) : List (String × JVal) → List Char
  | [] => []
  | kv :: rest =>
      match kv with
      | (k, v) =>
          match v with
          | .undefined => stringifyMembers first rest
          | w =>
              (if first then [] else [','])
                ++ quote k ++ ':' :: stringifyVal w
                ++ stringifyMembers false rest
termination_by structural kvs => kvs
end

/-- The built-in `JSON.stringify` on a value other than `undefined`. -/
def JSON.stringify (v : JVal) : String := String.mk (stringifyVal v)

/-! ## The network call -/

/-- What `handleAiGenerate` passes to `fetch`: the address, and the `method`,
the `Content-Type` header and the `body` of the options. -/
structure Request where
  url : String
  method : String
  contentType : String
  body : String
deriving DecidableEq

/-- The simulated outcome of one `fetch`: the promise is rejected with an
error that carries a message, or it yields a response with a status code and
a body text. -/
inductive FetchOutcome where
  | rejected (message : String)
  | response (status : Nat) (body : String)
deriving DecidableEq

/-- `response.ok`: the status is in the range 200 to 299. -/
def statusOk (status : Nat) : Bool := decide (200 ≤ status ∧ status ≤ 299)

/-- `response.json()`: the body text read as JSON; the promise is rejected
with a `SyntaxError` when it is not JSON. -/
def responseJson (body : String) : Except String JVal := JSON.parse body

/-- The final state of a handler together with the requests it issued, in
order. -/
structure Run (σ : Type) where
  state : σ
  requests : List Request

/-- The guard `!apiKey || apiKey === "YOUR_API_KEY_HERE"`; `none` stands for
`undefined`. -/
def keyMissing : Option String → Bool
  | none => true
  | some k => decide (k = "" ∨ k = "YOUR_API_KEY_HERE")

/-- The template literal `apiUrl`. -/
def apiUrl (apiKey : String) : String :=
  "https://generativelanguage.googleapis.com/v1beta/models/gemini-2.5-flash-preview-05-20:generateContent?key="
    ++ apiKey

/-- The object `payload`. -/
def payload (prompt systemPrompt : String) : JVal :=
  .obj [
    ("contents", .arr [.obj [("parts", .arr [.obj [("text", .str prompt)]])]]),
    ("systemInstruction", .obj [("parts", .arr [.obj [("text", .str systemPrompt)]])]),
    ("generationConfig", .obj [("responseMimeType", .str "application/json")])]

/-- The arguments of the call `fetch(apiUrl, ...)`. -/
def request (apiKey prompt systemPrompt : String) : Request :=
  { url := apiUrl apiKey
    method := "POST"
    contentType := "application/json"
    body := JSON.stringify (payload prompt systemPrompt) }

/-- The message of the error that the branch `!response.ok` throws. The
argument of `new Error(...)` is `errorBody?.error?.message || ...`, where
`errorBody` is the decoded body, or the fallback object of the `.catch` when
the body is not JSON; `new Error` converts its argument to a string, and when
that conversion raises a `TypeError`, that error is the one thrown. -/
def httpErrorMessage (status : Nat) (body : String) : String :=
  let errorBody : JVal :=
    match responseJson body with
    | .ok v => v
    | .error _ => .obj [("error", .obj [("message", .str "An unknown API error occurred.")])]
  match (JVal.or ((errorBody.optMember "error").optMember "message")
    (.str ("HTTP error! status: " ++ toString status))).toStr with
  | .ok message => message
  | .error message => message

/-- The expression `result.candidates?.[0]?.content?.parts?.[0]?.text`. -/
def payloadText (result : JVal) : Except String JVal := do
  let candidates ← result.member "candidates"
  pure (((((candidates.optMember "0").optMember "content").optMember "parts").optMember
    "0").optMember "text")

/-- The `try` block of `handleAiGenerate` from the settled `fetch` up to and
including `JSON.parse(text)`, which both files share: the parsed answer
`aiConfig`, or the message of the error that was thrown. -/
def parsedAnswer : FetchOutcome → Except String JVal
  | .rejected message => .error message
  | .response status body =>
      if statusOk status then do
        let result ← responseJson body
        let text ← payloadText result
        if text.truthy then JSON.parseOf text
        else .error "AI returned an empty or invalid response."
      else .error (httpErrorMessage status body)

/-! ## `src/App copy.jsx` -/

namespace AppCopy

/-- The state of the component `App`: the draft `config`, the applied
`displayConfig`, and the state of the prompt section. -/
structure State where
  config : Obj
  displayConfig : Obj
  prompt : String
  isLoading : Bool
  error : Option String
deriving DecidableEq

/-- The initial values of the `useState` calls. -/
def initial : State :=
  { config := [("shape", .str "cube"), ("color", .str "#4a90e2"),
      ("scale", .num (.fin 1 0)), ("material", .str "plastic")]
    displayConfig := [("shape", .str "cube"), ("color", .str "#4a90e2"),
      ("scale", .num (.fin 1 0)), ("material", .str "plastic")]
    prompt := ""
    isLoading := false
    error := none }

/-- The updater that `handleChange` passes to `setConfig`, for an event whose
target has the given `name` and `value`. -/
def changeUpdater (name value : String) (prev : Obj) : Obj :=
  Obj.set name (if name = "scale" then .num (parseFloat value) else .str value) prev

/-- The handler `handleChange` on an event whose target has the given `name`
and `value`. -/
def handleChange (name value : String) (s : State) : State :=
  { s with config := changeUpdater name value s.config }

/-- The handler `handleGenerate`. -/
def handleGenerate (s : State) : State :=
  { s with displayConfig := s.config }

/-- The `onChange` handler of the prompt field, `setPrompt(e.target.value)`. -/
def setPrompt (value : String) (s : State) : State :=
  { s with prompt := value }

/-- The constant `systemPrompt`. -/
def systemPrompt : String :=
  "You are an expert product design assistant. Analyze the user's request and return ONLY a valid JSON object with three keys: \"shape\" (as \"cube\", \"sphere\", or \"pyramid\"), \"color\" (as a hex code string like \"#ff0000\"), and \"material\" (as either \"plastic\" or \"metal\"). Do not include markdown, comments, or any other text."

/-- The object `newConfig` built from the parsed answer `aiConfig` and the
draft `config`. -/
def newConfig (config : Obj) (aiConfig : JVal) : Except String Obj := do
  let shape ← aiConfig.member "shape"
  let color ← aiConfig.member "color"
  let material ← aiConfig.member "material"
  pure (Obj.set "material" (JVal.or material (config.get "material"))
    (Obj.set "color" (JVal.or color (config.get "color"))
      (Obj.set "shape" (JVal.or shape (config.get "shape")) config)))

/-- The `try` block of `handleAiGenerate` after the `fetch` has settled: the
new configuration, or the message of the error that was thrown. -/
def tryBlock (config : Obj) (outcome : FetchOutcome) : Except String Obj := do
  let aiConfig ← parsedAnswer outcome
  newConfig config aiConfig

/-- The handler `handleAiGenerate`, run to completion. The source binds
`apiKey` to a string literal; it is an argument here. -/
def handleAiGenerate (apiKey : Option String) (fetch : Request → FetchOutcome)
    (s : State) : Run State :=
  if s.prompt = "" then
    ⟨{ s with error := some "Please enter a description." }, []⟩
  else if keyMissing apiKey then
    ⟨{ s with
        isLoading := false
        error := some "API Key is missing. Please add it to App.jsx" }, []⟩
  else
    let req := request (apiKey.getD "") s.prompt systemPrompt
    match tryBlock s.config (fetch req) with
    | .ok cfg =>
        ⟨{ s with config := cfg, displayConfig := cfg, isLoading := false, error := none },
          [req]⟩
    | .error message =>
        ⟨{ s with isLoading := false, error := some message }, [req]⟩

/-- What can happen to the component: an edit of a manual control, the button
`Apply Manual Changes`, an edit of the prompt field, and a completed
`handleAiGenerate` under some credential and some behaviour of the network. -/
inductive Event where
  | change (name value : String)
  | generate
  | prompt (value : String)
  | aiGenerate (apiKey : Option String) (fetch : Request → FetchOutcome)

/-- The state after an event. -/
def step (s : State) : Event → State
  | .change name value => handleChange name value s
  | .generate => handleGenerate s
  | .prompt value => setPrompt value s
  | .aiGenerate apiKey fetch => (handleAiGenerate apiKey fetch s).state

end AppCopy

/-! ## `src/App.jsx` -/

namespace App

/-- The state of the component `App`. -/
structure State where
  displayConfig : Obj
  prompt : String
  isLoading : Bool
  error : Option String
deriving DecidableEq

/-- The initial values of the `useState` calls. -/
def initial : State :=
  { displayConfig := [("shape", .str "pyramid"), ("color", .str "#ffd700"),
      ("scale", .num (.fin 1 0)), ("material", .str "metal")]
    prompt := "A golden metallic pyramid"
    isLoading := false
    error := none }

/-- The `onChange` handler of the prompt field, `setPrompt(e.target.value)`. -/
def setPrompt (value : String) (s : State) : State :=
  { s with prompt := value }

/-- The constant `systemPrompt`. -/
def systemPrompt : String :=
  "You are an expert 3D design assistant. Return ONLY a valid JSON object with \"shape\" (\"cube\", \"sphere\", \"pyramid\"), \"color\" (a hex code string), and \"material\" (\"plastic\" or \"metal\")."

/-- The handler `handleAiGenerate`, run to completion; `apiKey` is the value
of `import.meta.env.VITE_GEMINI_API_KEY`. -/
def handleAiGenerate (apiKey : Option String) (fetch : Request → FetchOutcome)
    (s : State) : Run State :=
  if s.prompt = "" then
    ⟨{ s with error := some "Please enter a description." }, []⟩
  else if keyMissing apiKey then
    ⟨{ s with
        isLoading := false
        error := some "API Key is missing. Please create a .env.local file and add your key." },
      []⟩
  else
    let req := request (apiKey.getD "") s.prompt systemPrompt
    match parsedAnswer (fetch req) with
    | .ok aiConfig =>
        ⟨{ s with
            displayConfig := Obj.spread s.displayConfig aiConfig
            isLoading := false
            error := none }, [req]⟩
    | .error message =>
        ⟨{ s with isLoading := false, error := some message }, [req]⟩

end App

/-! ## Predicates of the specification -/

/-- The pattern `#RRGGBB` of the specification: a hash sign followed by
exactly six hexadecimal digits. -/
def isHexColor (v : String) : Bool :=
  match v.data with
  | c :: ds => decide (c = '#') && decide (ds.length = 6) && ds.all (fun d => (hexVal d).isSome)
  | [] => false

/-- The range of the specification for `scale`: a number in the closed
interval from 0.5 to 2.0. -/
def inScaleRange : JVal → Bool
  | .num n => JNum.le (.fin 5 (-1)) n && JNum.le n (.fin 2 0)
  | _ => false

/-- The four fields of a configuration. -/
def fieldNames : List String := ["shape", "color", "scale", "material"]

/-- A configuration is fully populated: each of the four fields has a value
that is neither `undefined` nor `null`. -/
def populated (cfg : Obj) : Bool :=
  fieldNames.all (fun k => !(cfg.get k).nullish)

/-! ## Auxiliary definitions of the statements -/

/-- A finite list of manual edits, each the `name` and `value` of a
`handleChange` event, applied in order. -/
def applyEdits (es : List (String × String)) (s : AppCopy.State) : AppCopy.State :=
  es.foldl (fun st e => AppCopy.handleChange e.1 e.2 st) s

/-- The UTF-16 code units of a sequence of characters. -/
def unitsOf : List Char → List Nat
  | [] => []
  | c :: cs => utf16Units c ++ unitsOf cs

/-- The object the service is asked for: the keys `shape`, `color` and
`material`, each with a string. -/
def answerObject (s c m : String) : JVal :=
  .obj [("shape", .str s), ("color", .str c), ("material", .str m)]

/-! ## Concrete inputs -/

/-- A response body that carries an error message, as the service sends it
with status 429. -/
def rateLimitedBody : String := r##"{"error":{"message":"rate limited"}}"##

/-- A response body whose `error.message` is an object with an own property
`toString` that is not a function. -/
def unconvertibleBody : String := r##"{"error":{"message":{"toString":1}}}"##

/-- A response body whose payload text is the JSON object with the one key
`color`. -/
def colorOnlyBody : String :=
  r##"{"candidates":[{"content":{"parts":[{"text":"{\"color\":\"#112233\"}"}]}}]}"##

/-- A response body whose payload text is the JSON object with the one key
`shape`. -/
def shapeOnlyBody : String :=
  r##"{"candidates":[{"content":{"parts":[{"text":"{\"shape\":\"sphere\"}"}]}}]}"##

/-- A response body whose payload text is not JSON. -/
def proseBody : String :=
  r##"{"candidates":[{"content":{"parts":[{"text":"a red sphere"}]}}]}"##

/-- A response body whose payload text is a JSON object in which the key
`shape` holds `null`. -/
def nullShapeBody : String :=
  r##"{"candidates":[{"content":{"parts":[{"text":"{\"shape\":null}"}]}}]}"##

/-- The response body of the example of the specification: the payload text
is the object with shape `sphere`, color `#ff0000` and material `metal`. -/
def sphereBody : String :=
  r##"{"candidates":[{"content":{"parts":[{"text":"{\"shape\":\"sphere\",\"color\":\"#ff0000\",\"material\":\"metal\"}"}]}}]}"##

/-- A state of `src/App copy.jsx` with a prompt and an edit of the shape that
is not committed: the draft shape is `sphere`, the applied shape is `cube`. -/
def editedState : AppCopy.State :=
  AppCopy.handleChange "shape" "sphere" (AppCopy.setPrompt "make it dark blue" AppCopy.initial)

/-! ## The order of numbers -/

/-- The order test on decimals is the order of the rational numbers they
denote. -/
theorem decLe_iff (m1 e1 m2 e2 : Int) :
    decLe m1 e1 m2 e2 = true ↔ (m1 : ℚ) * 10 ^ e1 ≤ (m2 : ℚ) * 10 ^ e2 := by
  unfold decLe
  rw [decide_eq_true_iff]
  have ha : ((e1 - min e1 e2).toNat : ℤ) = e1 - min e1 e2 :=
    Int.toNat_of_nonneg (by have := min_le_left e1 e2; omega)
  have hb : ((e2 - min e1 e2).toNat : ℤ) = e2 - min e1 e2 :=
    Int.toNat_of_nonneg (by have := min_le_right e1 e2; omega)
  have hpos : (0 : ℚ) < 10 ^ (min e1 e2) := zpow_pos (by norm_num) _
  have h1 : (10 : ℚ) ^ e1 = 10 ^ (e1 - min e1 e2).toNat * 10 ^ (min e1 e2) := by
    rw [← zpow_natCast, ha, ← zpow_add₀ (by norm_num)]
    congr 1
    omega
  have h2 : (10 : ℚ) ^ e2 = 10 ^ (e2 - min e1 e2).toNat * 10 ^ (min e1 e2) := by
    rw [← zpow_natCast, hb, ← zpow_add₀ (by norm_num)]
    congr 1
    omega
  rw [h1, h2, ← mul_assoc, ← mul_assoc, mul_le_mul_right hpos]
  constructor
  · intro h
    exact_mod_cast h
  · intro h
    exact_mod_cast h

/-! ## Properties of property lists -/

theorem Obj.get_set_same (k : String) (v : JVal) (o : Obj) :
    Obj.get (Obj.set k v o) k = v := by
  induction o with
  | nil => simp [Obj.set, Obj.get, List.lookup]
  | cons kv rest ih =>
      obtain ⟨k1, v1⟩ := kv
      by_cases h : k1 = k
      · subst h
        simp [Obj.set, Obj.get, List.lookup]
      · have hne : (k == k1) = false := by
          simpa using fun e : k = k1 => h e.symm
        simp only [Obj.set, if_neg h]
        simpa [Obj.get, List.lookup, hne] using ih

theorem Obj.get_set_other (k k1 : String) (v : JVal) (o : Obj) (h : k1 ≠ k) :
    Obj.get (Obj.set k v o) k1 = Obj.get o k1 := by
  induction o with
  | nil =>
      have hne : (k1 == k) = false := by simpa using h
      simp [Obj.set, Obj.get, List.lookup, hne]
  | cons kv rest ih =>
      obtain ⟨k2, v2⟩ := kv
      by_cases h2 : k2 = k
      · subst h2
        have hne : (k1 == k2) = false := by simpa using h
        simp [Obj.set, Obj.get, List.lookup, hne]
      · simp only [Obj.set, if_neg h2]
        by_cases h3 : k1 = k2
        · subst h3
          simp [Obj.get, List.lookup]
        · have hne : (k1 == k2) = false := by simpa using h3
          simpa [Obj.get, List.lookup, hne] using ih

/-! ## Manual edits (`src/App copy.jsx`) -/

theorem applyEdits_config (es : List (String × String)) (s : AppCopy.State) :
    (applyEdits es s).config
      = es.foldl (fun d e => AppCopy.changeUpdater e.1 e.2 d) s.config := by
  induction es generalizing s with
  | nil => rfl
  | cons e rest ih =>
      simp only [applyEdits, List.foldl_cons] at ih ⊢
      rw [ih]
      rfl

theorem applyEdits_displayConfig (es : List (String × String)) (s : AppCopy.State) :
    (applyEdits es s).displayConfig = s.displayConfig := by
  induction es generalizing s with
  | nil => rfl
  | cons e rest ih =>
      simp only [applyEdits, List.foldl_cons] at ih ⊢
      rw [ih]
      rfl

/-- C6, as amended: `handleChange` with the name `color` stores the value it
is given as the draft color, for every string, whether or not the string has
the form `#RRGGBB`; nothing else of the state changes but the draft. -/
theorem handleChange_color_stores_value (s : AppCopy.State) (v : String) :
    Obj.get (AppCopy.handleChange "color" v s).config "color" = .str v
      ∧ (AppCopy.handleChange "color" v s).displayConfig = s.displayConfig := by
  refine ⟨?_, rfl⟩
  simp only [AppCopy.handleChange, AppCopy.changeUpdater]
  rw [Obj.get_set_same]
  simp

/-- C6 fails as stated: the string `red` does not have the form `#RRGGBB`,
and after `handleChange` with the name `color` and the value `red` on the
initial state the draft color is `red`, not the color it was before. -/
theorem handleChange_color_keeps_invalid_value :
    isHexColor "red" = false
      ∧ Obj.get (AppCopy.handleChange "color" "red" AppCopy.initial).config "color"
          = .str "red"
      ∧ Obj.get (AppCopy.handleChange "color" "red" AppCopy.initial).config "color"
          ≠ Obj.get AppCopy.initial.config "color" := by
  decide

/-- C7, as amended: `handleChange` with the name `scale` stores
`parseFloat(value)` as the draft scale without clamping it, so the draft scale
is in the range from 0.5 to 2.0 exactly when the parsed number is. -/
theorem handleChange_scale_stores_parsed_value (s : AppCopy.State) (v : String) :
    Obj.get (AppCopy.handleChange "scale" v s).config "scale" = .num (parseFloat v)
      ∧ inScaleRange (Obj.get (AppCopy.handleChange "scale" v s).config "scale")
          = inScaleRange (.num (parseFloat v)) := by
  have h : Obj.get (AppCopy.handleChange "scale" v s).config "scale"
      = .num (parseFloat v) := by
    simp only [AppCopy.handleChange, AppCopy.changeUpdater]
    rw [Obj.get_set_same]
    simp
  exact ⟨h, by rw [h]⟩

/-- C7 fails as stated: the initial draft scale 1 is in the range, the string
`3` is numeric, and after `handleChange` with the name `scale` and the value
`3` the draft scale is 3, outside the range from 0.5 to 2.0. -/
theorem handleChange_scale_leaves_range :
    inScaleRange (Obj.get AppCopy.initial.config "scale") = true
      ∧ parseFloat "3" = .fin 3 0
      ∧ Obj.get (AppCopy.handleChange "scale" "3" AppCopy.initial).config "scale"
          = .num (.fin 3 0)
      ∧ inScaleRange
          (Obj.get (AppCopy.handleChange "scale" "3" AppCopy.initial).config "scale")
          = false := by
  decide

/-- C8: a finite list of manual edits leaves the applied configuration as it
was, and a following `handleGenerate` makes the applied configuration equal to
the draft obtained by folding the edits over the draft, and leaves that draft
unchanged. -/
theorem edits_then_commit (s : AppCopy.State) (es : List (String × String)) :
    (applyEdits es s).displayConfig = s.displayConfig
      ∧ (AppCopy.handleGenerate (applyEdits es s)).displayConfig
          = es.foldl (fun d e => AppCopy.changeUpdater e.1 e.2 d) s.config
      ∧ (AppCopy.handleGenerate (applyEdits es s)).config
          = es.foldl (fun d e => AppCopy.changeUpdater e.1 e.2 d) s.config := by
  refine ⟨applyEdits_displayConfig es s, ?_, ?_⟩
  · simp only [AppCopy.handleGenerate]
    exact applyEdits_config es s
  · simp only [AppCopy.handleGenerate]
    exact applyEdits_config es s

/-! ## The AI path -/

theorem keyMissing_iff (apiKey : Option String) :
    keyMissing apiKey = true
      ↔ apiKey = none ∨ apiKey = some "" ∨ apiKey = some "YOUR_API_KEY_HERE" := by
  cases apiKey with
  | none => simp [keyMissing]
  | some k => simp [keyMissing]

theorem app_run_of_empty_prompt (apiKey : Option String) (fetch : Request → FetchOutcome)
    (s : App.State) (h : s.prompt = "") :
    App.handleAiGenerate apiKey fetch s
      = ⟨{ s with error := some "Please enter a description." }, []⟩ := by
  simp [App.handleAiGenerate, h]

theorem app_run_of_missing_key (apiKey : Option String) (fetch : Request → FetchOutcome)
    (s : App.State) (h : s.prompt ≠ "") (hk : keyMissing apiKey = true) :
    App.handleAiGenerate apiKey fetch s
      = ⟨{ s with
            isLoading := false
            error := some
              "API Key is missing. Please create a .env.local file and add your key." },
          []⟩ := by
  simp [App.handleAiGenerate, h, hk]

theorem app_run_of_call (k : String) (fetch : Request → FetchOutcome)
    (s : App.State) (h : s.prompt ≠ "") (hk : keyMissing (some k) = false) :
    App.handleAiGenerate (some k) fetch s
      = match parsedAnswer (fetch (request k s.prompt App.systemPrompt)) with
        | .ok aiConfig =>
            ⟨{ s with
                displayConfig := Obj.spread s.displayConfig aiConfig
                isLoading := false
                error := none }, [request k s.prompt App.systemPrompt]⟩
        | .error message =>
            ⟨{ s with isLoading := false, error := some message },
              [request k s.prompt App.systemPrompt]⟩ := by
  simp [App.handleAiGenerate, h, hk]

theorem copy_run_of_empty_prompt (apiKey : Option String)
    (fetch : Request → FetchOutcome) (s : AppCopy.State) (h : s.prompt = "") :
    AppCopy.handleAiGenerate apiKey fetch s
      = ⟨{ s with error := some "Please enter a description." }, []⟩ := by
  simp [AppCopy.handleAiGenerate, h]

theorem copy_run_of_missing_key (apiKey : Option String)
    (fetch : Request → FetchOutcome) (s : AppCopy.State) (h : s.prompt ≠ "")
    (hk : keyMissing apiKey = true) :
    AppCopy.handleAiGenerate apiKey fetch s
      = ⟨{ s with
            isLoading := false
            error := some "API Key is missing. Please add it to App.jsx" }, []⟩ := by
  simp [AppCopy.handleAiGenerate, h, hk]

theorem copy_run_of_call (k : String) (fetch : Request → FetchOutcome)
    (s : AppCopy.State) (h : s.prompt ≠ "") (hk : keyMissing (some k) = false) :
    AppCopy.handleAiGenerate (some k) fetch s
      = match AppCopy.tryBlock s.config
            (fetch (request k s.prompt AppCopy.systemPrompt)) with
        | .ok cfg =>
            ⟨{ s with
                config := cfg
                displayConfig := cfg
                isLoading := false
                error := none }, [request k s.prompt AppCopy.systemPrompt]⟩
        | .error message =>
            ⟨{ s with isLoading := false, error := some message },
              [request k s.prompt AppCopy.systemPrompt]⟩ := by
  simp [AppCopy.handleAiGenerate, h, hk]

/-- C5: in `src/App.jsx`, when the prompt is empty or the credential is
missing (`undefined`, empty, or the placeholder `YOUR_API_KEY_HERE`),
`handleAiGenerate` issues no network call and ends with an error message; with
a non-empty prompt and a present credential it issues exactly one network
call, the request built from that prompt and credential. -/
theorem local_validation_issues_no_request (apiKey : Option String)
    (fetch : Request → FetchOutcome) (s : App.State) :
    ((s.prompt = "" ∨ apiKey = none ∨ apiKey = some ""
          ∨ apiKey = some "YOUR_API_KEY_HERE") →
        (App.handleAiGenerate apiKey fetch s).requests = []
          ∧ (App.handleAiGenerate apiKey fetch s).state.error ≠ none)
      ∧ (∀ k : String, s.prompt ≠ "" → apiKey = some k → k ≠ ""
          → k ≠ "YOUR_API_KEY_HERE" →
        (App.handleAiGenerate apiKey fetch s).requests
            = [request k s.prompt App.systemPrompt]
          ∧ (App.handleAiGenerate apiKey fetch s).requests.length = 1) := by
  constructor
  · intro h
    by_cases hp : s.prompt = ""
    · rw [app_run_of_empty_prompt apiKey fetch s hp]
      simp
    · have hk : keyMissing apiKey = true := by
        rw [keyMissing_iff]
        rcases h with h | h
        · exact absurd h hp
        · exact h
      rw [app_run_of_missing_key apiKey fetch s hp hk]
      simp
  · intro k hp hk h1 h2
    subst hk
    have hm : keyMissing (some k) = false := by simp [keyMissing, h1, h2]
    rw [app_run_of_call k fetch s hp hm]
    cases parsedAnswer (fetch (request k s.prompt App.systemPrompt)) <;> simp

/-- C5 at concrete inputs: the empty prompt with a credential, and the initial
prompt with the credential `k` and a rejected `fetch`. -/
theorem local_validation_issues_no_request_witness :
    ((App.handleAiGenerate (some "k") (fun _ => .rejected "Failed to fetch")
          (App.setPrompt "" App.initial)).requests = []
        ∧ (App.handleAiGenerate (some "k") (fun _ => .rejected "Failed to fetch")
          (App.setPrompt "" App.initial)).state.error ≠ none)
      ∧ (App.handleAiGenerate (some "k") (fun _ => .rejected "Failed to fetch")
          App.initial).requests.length = 1 :=
  ⟨(local_validation_issues_no_request (some "k") (fun _ => .rejected "Failed to fetch")
      (App.setPrompt "" App.initial)).1 (Or.inl rfl),
    ((local_validation_issues_no_request (some "k") (fun _ => .rejected "Failed to fetch")
      App.initial).2 "k" (by decide) rfl (by decide) (by decide)).2⟩

/-- C1: whenever `handleAiGenerate` ends with an error message, in either
file, the configuration is what it was before the call: the draft and the
applied configuration in `src/App copy.jsx`, the displayed configuration in
`src/App.jsx`. -/
theorem error_leaves_configuration (apiKey : Option String)
    (fetch : Request → FetchOutcome) (s : AppCopy.State) (t : App.State) :
    ((AppCopy.handleAiGenerate apiKey fetch s).state.error ≠ none →
        (AppCopy.handleAiGenerate apiKey fetch s).state.config = s.config
          ∧ (AppCopy.handleAiGenerate apiKey fetch s).state.displayConfig
              = s.displayConfig)
      ∧ ((App.handleAiGenerate apiKey fetch t).state.error ≠ none →
        (App.handleAiGenerate apiKey fetch t).state.displayConfig = t.displayConfig) := by
  constructor
  · by_cases hp : s.prompt = ""
    · rw [copy_run_of_empty_prompt apiKey fetch s hp]
      simp
    · by_cases hk : keyMissing apiKey = true
      · rw [copy_run_of_missing_key apiKey fetch s hp hk]
        simp
      · cases apiKey with
        | none => simp [keyMissing] at hk
        | some k =>
            rw [copy_run_of_call k fetch s hp (by simpa using hk)]
            cases AppCopy.tryBlock s.config
              (fetch (request k s.prompt AppCopy.systemPrompt)) <;> simp
  · by_cases hp : t.prompt = ""
    · rw [app_run_of_empty_prompt apiKey fetch t hp]
      simp
    · by_cases hk : keyMissing apiKey = true
      · rw [app_run_of_missing_key apiKey fetch t hp hk]
        simp
      · cases apiKey with
        | none => simp [keyMissing] at hk
        | some k =>
            rw [app_run_of_call k fetch t hp (by simpa using hk)]
            cases parsedAnswer (fetch (request k t.prompt App.systemPrompt)) <;> simp

/-! ## Error messages -/

theorem parsedAnswer_of_http_error (status : Nat) (body : String)
    (h : statusOk status = false) :
    parsedAnswer (.response status body) = .error (httpErrorMessage status body) := by
  simp [parsedAnswer, h]

theorem parsedAnswer_of_text (status : Nat) (body : String) (result text : JVal)
    (hs : statusOk status = true) (hj : responseJson body = .ok result)
    (hp : payloadText result = .ok text) (ht : text.truthy = true) :
    parsedAnswer (.response status body) = JSON.parseOf text := by
  simp [parsedAnswer, hs, hj, hp, ht, bind, Except.bind]

theorem copy_tryBlock_of_error (config : Obj) (outcome : FetchOutcome) (e : String)
    (h : parsedAnswer outcome = .error e) :
    AppCopy.tryBlock config outcome = .error e := by
  simp [AppCopy.tryBlock, h, bind, Except.bind]

theorem copy_tryBlock_of_ok (config : Obj) (outcome : FetchOutcome) (v : JVal)
    (h : parsedAnswer outcome = .ok v) :
    AppCopy.tryBlock config outcome = AppCopy.newConfig config v := by
  simp [AppCopy.tryBlock, h, bind, Except.bind]

theorem httpErrorMessage_of_truthy (status : Nat) (body : String) (b : JVal)
    (hj : responseJson body = .ok b)
    (ht : ((b.optMember "error").optMember "message").truthy = true) :
    httpErrorMessage status body
      = match ((b.optMember "error").optMember "message").toStr with
        | .ok message => message
        | .error message => message := by
  simp [httpErrorMessage, hj, JVal.or, ht]

theorem httpErrorMessage_of_falsy (status : Nat) (body : String) (b : JVal)
    (hj : responseJson body = .ok b)
    (ht : ((b.optMember "error").optMember "message").truthy = false) :
    httpErrorMessage status body = "HTTP error! status: " ++ toString status := by
  simp [httpErrorMessage, hj, JVal.or, ht, JVal.toStr]

theorem httpErrorMessage_of_undecodable (status : Nat) (body e : String)
    (hj : responseJson body = .error e) :
    httpErrorMessage status body = "An unknown API error occurred." := by
  have h : ((JVal.obj [("error", JVal.obj [("message",
      JVal.str "An unknown API error occurred.")])]).optMember "error").optMember "message"
      = JVal.str "An unknown API error occurred." := by decide
  simp only [httpErrorMessage, hj, h]
  rfl

/-- C4, as amended: for a response with a non-success HTTP status, in either
file, `handleAiGenerate` ends with an error message, which is: when the body
decodes as JSON and its `error.message` is truthy, the text of that value (for
a non-empty string, the string itself), or the message of the `TypeError` when
that value cannot be converted to a string; `HTTP error! status: ` followed by
the status code when the body decodes as JSON and has no truthy
`error.message`; and the fixed text `An unknown API error occurred.`, without
the status code, when the body does not decode as JSON. -/
theorem http_error_message (k : String) (fetch : Request → FetchOutcome)
    (s : AppCopy.State) (t : App.State) (status : Nat) (body : String)
    (hs : s.prompt ≠ "") (ht : t.prompt ≠ "") (hk : keyMissing (some k) = false)
    (hfs : fetch (request k s.prompt AppCopy.systemPrompt) = .response status body)
    (hft : fetch (request k t.prompt App.systemPrompt) = .response status body)
    (hst : statusOk status = false) :
    (AppCopy.handleAiGenerate (some k) fetch s).state.error
        = some (httpErrorMessage status body)
      ∧ (App.handleAiGenerate (some k) fetch t).state.error
        = some (httpErrorMessage status body)
      ∧ (∀ (b : JVal) (m : String), responseJson body = .ok b →
          ((b.optMember "error").optMember "message").truthy = true →
          ((b.optMember "error").optMember "message").toStr = .ok m →
          httpErrorMessage status body = m)
      ∧ (∀ (b : JVal) (e : String), responseJson body = .ok b →
          ((b.optMember "error").optMember "message").truthy = true →
          ((b.optMember "error").optMember "message").toStr = .error e →
          httpErrorMessage status body = e)
      ∧ (∀ (b : JVal) (m : String), responseJson body = .ok b →
          (b.optMember "error").optMember "message" = .str m → m ≠ "" →
          httpErrorMessage status body = m)
      ∧ (∀ b : JVal, responseJson body = .ok b →
          ((b.optMember "error").optMember "message").truthy = false →
          httpErrorMessage status body = "HTTP error! status: " ++ toString status)
      ∧ (∀ e : String, responseJson body = .error e →
          httpErrorMessage status body = "An unknown API error occurred.") := by
  have hp := parsedAnswer_of_http_error status body hst
  refine ⟨?_, ?_, ?_, ?_, ?_, ?_, ?_⟩
  · rw [copy_run_of_call k fetch s hs hk, hfs,
      copy_tryBlock_of_error s.config _ _ hp]
  · rw [app_run_of_call k fetch t ht hk, hft, hp]
  · intro b m hj h hm
    rw [httpErrorMessage_of_truthy status body b hj h, hm]
  · intro b e hj h he
    rw [httpErrorMessage_of_truthy status body b hj h, he]
  · intro b m hj hm hne
    rw [httpErrorMessage_of_truthy status body b hj (by simp [hm, JVal.truthy, hne]), hm]
    rfl
  · intro b hj h
    exact httpErrorMessage_of_falsy status body b hj h
  · intro e hj
    exact httpErrorMessage_of_undecodable status body e hj

set_option maxRecDepth 100000 in
/-- C4 at the example of the specification: status 429 with the body
`{"error":{"message":"rate limited"}}` ends with the message `rate limited`
in both files. And where the conversion of the message fails: with status 500
and the body `{"error":{"message":{"toString":1}}}`, the value of
`error.message` is an object whose own property `toString` is not a function,
`new Error` cannot convert it, and both files end with the message of the
`TypeError`. -/
theorem http_error_message_witness :
    ((AppCopy.handleAiGenerate (some "k") (fun _ => .response 429 rateLimitedBody)
          editedState).state.error = some "rate limited"
        ∧ (App.handleAiGenerate (some "k") (fun _ => .response 429 rateLimitedBody)
          App.initial).state.error = some "rate limited")
      ∧ ((AppCopy.handleAiGenerate (some "k") (fun _ => .response 500 unconvertibleBody)
          editedState).state.error = some toPrimitiveErrorMessage
        ∧ (App.handleAiGenerate (some "k") (fun _ => .response 500 unconvertibleBody)
          App.initial).state.error = some toPrimitiveErrorMessage) := by
  have h := http_error_message "k" (fun _ => .response 429 rateLimitedBody)
    editedState App.initial 429 rateLimitedBody (by decide) (by decide) (by decide)
    rfl rfl (by decide)
  have hm : httpErrorMessage 429 rateLimitedBody = "rate limited" :=
    h.2.2.2.2.1 (.obj [("error", .obj [("message", .str "rate limited")])]) "rate limited"
      (by decide) (by decide) (by decide)
  have g := http_error_message "k" (fun _ => .response 500 unconvertibleBody)
    editedState App.initial 500 unconvertibleBody (by decide) (by decide) (by decide)
    rfl rfl (by decide)
  have gm : httpErrorMessage 500 unconvertibleBody = toPrimitiveErrorMessage :=
    g.2.2.2.1
      (.obj [("error", .obj [("message", .obj [("toString", .num (.fin 1 0))])])])
      toPrimitiveErrorMessage (by decide) (by decide) (by decide)
  exact ⟨⟨h.1.trans (congrArg some hm), h.2.1.trans (congrArg some hm)⟩,
    ⟨g.1.trans (congrArg some gm), g.2.1.trans (congrArg some gm)⟩⟩

set_option maxRecDepth 100000 in
/-- C4 fails as stated: with status 500 and the body `oops`, which is not
JSON, both files end with the message `An unknown API error occurred.`, a
text that does not include the status code 500. -/
theorem http_error_message_without_status :
    statusOk 500 = false
      ∧ responseJson "oops" = .error syntaxErrorMessage
      ∧ (AppCopy.handleAiGenerate (some "k") (fun _ => .response 500 "oops")
          editedState).state.error = some "An unknown API error occurred."
      ∧ (App.handleAiGenerate (some "k") (fun _ => .response 500 "oops")
          App.initial).state.error = some "An unknown API error occurred."
      ∧ ¬ ((toString 500).data <:+: "An unknown API error occurred.".data) := by
  decide

/-! ## Answers that are not the expected object -/

theorem JVal.or_undefined (b : JVal) : JVal.or .undefined b = b := by
  simp [JVal.or, JVal.truthy]

theorem JVal.or_of_truthy (a b : JVal) (h : a.truthy = true) : JVal.or a b = a := by
  simp [JVal.or, h]

theorem Obj.get_foldl_set_absent (k : String) (src : Obj) (o : Obj)
    (h : ∀ kv ∈ src, kv.1 ≠ k) :
    Obj.get (src.foldl (fun acc kv => Obj.set kv.1 kv.2 acc) o) k = Obj.get o k := by
  induction src generalizing o with
  | nil => rfl
  | cons kv rest ih =>
      simp only [List.foldl_cons]
      rw [ih _ (fun x hx => h x (List.mem_cons_of_mem _ hx))]
      exact Obj.get_set_other kv.1 k kv.2 o (fun e => h kv (List.mem_cons_self _ _) e.symm)

theorem Obj.get_spread_absent (k : String) (o : Obj) (src : JVal)
    (h : ∀ kv ∈ src.ownProps, kv.1 ≠ k) :
    Obj.get (Obj.spread o src) k = Obj.get o k :=
  Obj.get_foldl_set_absent k src.ownProps o h

theorem newConfig_of_obj (config : Obj) (kvs : List (String × JVal)) :
    AppCopy.newConfig config (.obj kvs)
      = .ok (Obj.set "material"
          (JVal.or (Obj.get kvs "material") (Obj.get config "material"))
          (Obj.set "color" (JVal.or (Obj.get kvs "color") (Obj.get config "color"))
            (Obj.set "shape" (JVal.or (Obj.get kvs "shape") (Obj.get config "shape"))
              config))) := by
  simp [AppCopy.newConfig, JVal.member, JVal.nullish, JVal.getProp, JVal.ownProps, bind,
    Except.bind, pure, Except.pure]

theorem Obj.get_absent (kvs : Obj) (key : String) (h : ∀ kv ∈ kvs, kv.1 ≠ key) :
    Obj.get kvs key = .undefined := by
  induction kvs with
  | nil => rfl
  | cons kv rest ih =>
      obtain ⟨k1, v1⟩ := kv
      have hne : (key == k1) = false := by
        simpa using fun e : key = k1 => h (k1, v1) (List.mem_cons_self _ _) e.symm
      have := ih (fun x hx => h x (List.mem_cons_of_mem _ hx))
      simpa [Obj.get, List.lookup, hne] using this

/-- C9, as amended: for a success-status response whose text payload is
present, in either file: when `JSON.parse` rejects the text,
`handleAiGenerate` ends with the error message of `JSON.parse` and the
configuration unchanged; when the text parses to an object, `handleAiGenerate`
ends without an error whichever keys the object has, and each of the keys
`shape`, `color` and `material` that the object lacks keeps its prior value
(the value of the draft in `src/App copy.jsx`, of the displayed configuration
in `src/App.jsx`). -/
theorem unparsable_payload_is_an_error (k : String) (fetch : Request → FetchOutcome)
    (s : AppCopy.State) (t : App.State) (status : Nat) (body : String)
    (result text : JVal)
    (hs : s.prompt ≠ "") (ht : t.prompt ≠ "") (hk : keyMissing (some k) = false)
    (hfs : fetch (request k s.prompt AppCopy.systemPrompt) = .response status body)
    (hft : fetch (request k t.prompt App.systemPrompt) = .response status body)
    (hst : statusOk status = true) (hj : responseJson body = .ok result)
    (hp : payloadText result = .ok text) (htx : text.truthy = true) :
    (∀ e : String, JSON.parseOf text = .error e →
        (AppCopy.handleAiGenerate (some k) fetch s).state.error = some e
          ∧ (AppCopy.handleAiGenerate (some k) fetch s).state.config = s.config
          ∧ (AppCopy.handleAiGenerate (some k) fetch s).state.displayConfig
              = s.displayConfig
          ∧ (App.handleAiGenerate (some k) fetch t).state.error = some e
          ∧ (App.handleAiGenerate (some k) fetch t).state.displayConfig
              = t.displayConfig)
      ∧ (∀ kvs : List (String × JVal), JSON.parseOf text = .ok (.obj kvs) →
        (AppCopy.handleAiGenerate (some k) fetch s).state.error = none
          ∧ (App.handleAiGenerate (some k) fetch t).state.error = none
          ∧ ∀ key : String, key ∈ ["shape", "color", "material"] →
              (∀ kv ∈ kvs, kv.1 ≠ key) →
              Obj.get (AppCopy.handleAiGenerate (some k) fetch s).state.displayConfig key
                  = Obj.get s.config key
                ∧ Obj.get (App.handleAiGenerate (some k) fetch t).state.displayConfig key
                  = Obj.get t.displayConfig key) := by
  have hpa := parsedAnswer_of_text status body result text hst hj hp htx
  constructor
  · intro e he
    rw [he] at hpa
    rw [copy_run_of_call k fetch s hs hk, hfs, copy_tryBlock_of_error s.config _ _ hpa,
      app_run_of_call k fetch t ht hk, hft, hpa]
    simp
  · intro kvs hkvs
    rw [hkvs] at hpa
    rw [copy_run_of_call k fetch s hs hk, hfs, copy_tryBlock_of_ok s.config _ _ hpa,
      newConfig_of_obj, app_run_of_call k fetch t ht hk, hft, hpa]
    refine ⟨rfl, rfl, ?_⟩
    intro key hkey habs
    refine ⟨?_, Obj.get_spread_absent key t.displayConfig (.obj kvs) habs⟩
    dsimp only
    simp only [List.mem_cons, List.mem_singleton, List.not_mem_nil, or_false] at hkey
    rcases hkey with h | h | h
    · subst h
      rw [Obj.get_set_other _ _ _ _ (by decide), Obj.get_set_other _ _ _ _ (by decide),
        Obj.get_set_same, Obj.get_absent kvs _ habs, JVal.or_undefined]
    · subst h
      rw [Obj.get_set_other _ _ _ _ (by decide), Obj.get_set_same,
        Obj.get_absent kvs _ habs, JVal.or_undefined]
    · subst h
      rw [Obj.get_set_same, Obj.get_absent kvs _ habs, JVal.or_undefined]

set_option maxRecDepth 100000 in
/-- C9 at a concrete input: the payload text `a red sphere` is not JSON, and
both files end with the error message of `JSON.parse`. -/
theorem unparsable_payload_is_an_error_witness :
    (AppCopy.handleAiGenerate (some "k") (fun _ => .response 200 proseBody)
        editedState).state.error = some syntaxErrorMessage
      ∧ (App.handleAiGenerate (some "k") (fun _ => .response 200 proseBody)
        App.initial).state.error = some syntaxErrorMessage := by
  have h := (unparsable_payload_is_an_error "k" (fun _ => .response 200 proseBody)
    editedState App.initial 200 proseBody
    (.obj [("candidates", .arr [.obj [("content", .obj [("parts",
      .arr [.obj [("text", .str "a red sphere")]])])]])])
    (.str "a red sphere") (by decide) (by decide) (by decide) rfl rfl (by decide)
    (by decide) (by decide) (by decide)).1 syntaxErrorMessage (by decide)
  exact ⟨h.1, h.2.2.2.1⟩

set_option maxRecDepth 100000 in
/-- C9 fails as stated: the payload text `{"shape":"sphere"}` is present and
parses to an object that lacks the keys `color` and `material`, and both files
end without an error, with the shape of the answer displayed. -/
theorem payload_lacking_keys_is_accepted :
    statusOk 200 = true
      ∧ (JSON.parse shapeOnlyBody).map payloadText
          = .ok (.ok (.str r##"{"shape":"sphere"}"##))
      ∧ JSON.parse r##"{"shape":"sphere"}"## = .ok (.obj [("shape", .str "sphere")])
      ∧ (AppCopy.handleAiGenerate (some "k") (fun _ => .response 200 shapeOnlyBody)
          editedState).state.error = none
      ∧ (App.handleAiGenerate (some "k") (fun _ => .response 200 shapeOnlyBody)
          App.initial).state.error = none
      ∧ Obj.get (App.handleAiGenerate (some "k") (fun _ => .response 200 shapeOnlyBody)
          App.initial).state.displayConfig "shape" = .str "sphere" := by
  decide

/-! ## The merge of the answer -/

/-- C2, as amended: when the answer of a successful `handleAiGenerate` in
`src/App copy.jsx` is an object with the one key `color`, the new applied
configuration is also the new draft; its color is the color of the answer when
that value is truthy (a non-empty string), and the draft's color otherwise;
its shape, scale and material are those of the draft before the call (which
are those of the applied configuration only when there is no uncommitted
edit). -/
theorem ai_merge_is_over_draft (k : String) (fetch : Request → FetchOutcome)
    (s : AppCopy.State) (v : JVal)
    (hs : s.prompt ≠ "") (hk : keyMissing (some k) = false)
    (ha : parsedAnswer (fetch (request k s.prompt AppCopy.systemPrompt))
      = .ok (.obj [("color", v)])) :
    (AppCopy.handleAiGenerate (some k) fetch s).state.error = none
      ∧ (AppCopy.handleAiGenerate (some k) fetch s).state.config
          = (AppCopy.handleAiGenerate (some k) fetch s).state.displayConfig
      ∧ Obj.get (AppCopy.handleAiGenerate (some k) fetch s).state.displayConfig "color"
          = JVal.or v (Obj.get s.config "color")
      ∧ (v.truthy = true →
          Obj.get (AppCopy.handleAiGenerate (some k) fetch s).state.displayConfig "color"
            = v)
      ∧ Obj.get (AppCopy.handleAiGenerate (some k) fetch s).state.displayConfig "shape"
          = Obj.get s.config "shape"
      ∧ Obj.get (AppCopy.handleAiGenerate (some k) fetch s).state.displayConfig "scale"
          = Obj.get s.config "scale"
      ∧ Obj.get (AppCopy.handleAiGenerate (some k) fetch s).state.displayConfig
          "material" = Obj.get s.config "material" := by
  have hshape : Obj.get [("color", v)] "shape" = .undefined := by
    simp [Obj.get, List.lookup]
  have hmat : Obj.get [("color", v)] "material" = .undefined := by
    simp [Obj.get, List.lookup]
  have hcol : Obj.get [("color", v)] "color" = v := by
    simp [Obj.get, List.lookup]
  rw [copy_run_of_call k fetch s hs hk, copy_tryBlock_of_ok s.config _ _ ha,
    newConfig_of_obj, hshape, hmat, hcol, JVal.or_undefined, JVal.or_undefined]
  have hc : Obj.get (Obj.set "material" (Obj.get s.config "material")
      (Obj.set "color" (JVal.or v (Obj.get s.config "color"))
        (Obj.set "shape" (Obj.get s.config "shape") s.config))) "color"
      = JVal.or v (Obj.get s.config "color") := by
    rw [Obj.get_set_other _ _ _ _ (by decide), Obj.get_set_same]
  refine ⟨rfl, rfl, hc, ?_, ?_, ?_, ?_⟩
  · intro hv
    rw [hc, JVal.or_of_truthy v _ hv]
  · rw [Obj.get_set_other _ _ _ _ (by decide), Obj.get_set_other _ _ _ _ (by decide),
      Obj.get_set_same]
  · rw [Obj.get_set_other _ _ _ _ (by decide), Obj.get_set_other _ _ _ _ (by decide),
      Obj.get_set_other _ _ _ _ (by decide)]
  · rw [Obj.get_set_same]

set_option maxRecDepth 100000 in
/-- C2 at a concrete input: with the draft shape `sphere` not committed and
the answer `{"color":"#112233"}`, the new applied configuration has the color
of the answer and the shape of the draft. -/
theorem ai_merge_is_over_draft_witness :
    Obj.get (AppCopy.handleAiGenerate (some "k") (fun _ => .response 200 colorOnlyBody)
        editedState).state.displayConfig "color" = .str "#112233"
      ∧ Obj.get (AppCopy.handleAiGenerate (some "k")
          (fun _ => .response 200 colorOnlyBody) editedState).state.displayConfig "shape"
        = Obj.get editedState.config "shape" := by
  have h := ai_merge_is_over_draft "k" (fun _ => .response 200 colorOnlyBody)
    editedState (.str "#112233") (by decide) (by decide) (by decide)
  exact ⟨h.2.2.2.1 (by decide), h.2.2.2.2.1⟩

set_option maxRecDepth 100000 in
/-- C2 fails as stated: the applied shape is `cube`, the draft shape is
`sphere` by an edit that is not committed, and the answer holds only the color
`#112233`; after the successful `handleAiGenerate` the applied configuration
has that color, and its shape is `sphere`, not the shape `cube` of the applied
configuration before the call. -/
theorem ai_merge_drops_applied_shape :
    Obj.get editedState.displayConfig "shape" = .str "cube"
      ∧ Obj.get editedState.config "shape" = .str "sphere"
      ∧ parsedAnswer (.response 200 colorOnlyBody) = .ok (.obj [("color", .str "#112233")])
      ∧ (AppCopy.handleAiGenerate (some "k") (fun _ => .response 200 colorOnlyBody)
          editedState).state.error = none
      ∧ Obj.get (AppCopy.handleAiGenerate (some "k")
          (fun _ => .response 200 colorOnlyBody) editedState).state.displayConfig "color"
        = .str "#112233"
      ∧ Obj.get (AppCopy.handleAiGenerate (some "k")
          (fun _ => .response 200 colorOnlyBody) editedState).state.displayConfig "shape"
        = .str "sphere"
      ∧ Obj.get (AppCopy.handleAiGenerate (some "k")
          (fun _ => .response 200 colorOnlyBody) editedState).state.displayConfig "shape"
        ≠ Obj.get editedState.displayConfig "shape" := by
  decide

set_option maxRecDepth 100000 in
/-- C1 at the example of the specification: after status 429 both files end
with an error message and the configurations they had before the call. -/
theorem error_leaves_configuration_witness :
    ((AppCopy.handleAiGenerate (some "k") (fun _ => .response 429 rateLimitedBody)
          editedState).state.config = editedState.config
        ∧ (AppCopy.handleAiGenerate (some "k") (fun _ => .response 429 rateLimitedBody)
          editedState).state.displayConfig = editedState.displayConfig)
      ∧ (App.handleAiGenerate (some "k") (fun _ => .response 429 rateLimitedBody)
          App.initial).state.displayConfig = App.initial.displayConfig :=
  ⟨(error_leaves_configuration (some "k") (fun _ => .response 429 rateLimitedBody)
      editedState App.initial).1 (by decide),
    (error_leaves_configuration (some "k") (fun _ => .response 429 rateLimitedBody)
      editedState App.initial).2 (by decide)⟩

/-! ## Fully populated configurations -/

theorem populated_iff (cfg : Obj) :
    populated cfg = true ↔ ∀ k ∈ fieldNames, (Obj.get cfg k).nullish = false := by
  simp [populated, List.all_eq_true]

theorem populated_set (k : String) (v : JVal) (o : Obj) (ho : populated o = true)
    (hv : v.nullish = false) : populated (Obj.set k v o) = true := by
  rw [populated_iff] at ho ⊢
  intro f hf
  by_cases h : f = k
  · subst h
    rw [Obj.get_set_same]
    exact hv
  · rw [Obj.get_set_other k f v o h]
    exact ho f hf

theorem nullish_of_truthy (v : JVal) (h : v.truthy = true) : v.nullish = false := by
  cases v <;> simp_all [JVal.truthy, JVal.nullish]

theorem nullish_or (a b : JVal) (hb : b.nullish = false) : (JVal.or a b).nullish = false := by
  unfold JVal.or
  split
  · exact nullish_of_truthy a (by assumption)
  · exact hb

theorem populated_changeUpdater (name value : String) (o : Obj)
    (ho : populated o = true) : populated (AppCopy.changeUpdater name value o) = true := by
  unfold AppCopy.changeUpdater
  apply populated_set _ _ _ ho
  split <;> rfl

theorem populated_newConfig (config cfg : Obj) (aiConfig : JVal)
    (ho : populated config = true) (h : AppCopy.newConfig config aiConfig = .ok cfg) :
    populated cfg = true := by
  have hf := (populated_iff config).1 ho
  unfold AppCopy.newConfig JVal.member at h
  by_cases hn : aiConfig.nullish = true
  · simp [hn, bind, Except.bind] at h
  · simp only [hn, bind, Except.bind, pure, Except.pure] at h
    injection h with h
    subst h
    apply populated_set _ _ _ _ (nullish_or _ _ (hf "material" (by decide)))
    apply populated_set _ _ _ _ (nullish_or _ _ (hf "color" (by decide)))
    exact populated_set _ _ _ ho (nullish_or _ _ (hf "shape" (by decide)))

theorem populated_copy_handleAiGenerate (apiKey : Option String)
    (fetch : Request → FetchOutcome) (s : AppCopy.State)
    (hc : populated s.config = true) (hd : populated s.displayConfig = true) :
    populated (AppCopy.handleAiGenerate apiKey fetch s).state.config = true
      ∧ populated (AppCopy.handleAiGenerate apiKey fetch s).state.displayConfig = true := by
  by_cases hp : s.prompt = ""
  · rw [copy_run_of_empty_prompt apiKey fetch s hp]
    exact ⟨hc, hd⟩
  · by_cases hk : keyMissing apiKey = true
    · rw [copy_run_of_missing_key apiKey fetch s hp hk]
      exact ⟨hc, hd⟩
    · cases apiKey with
      | none => simp [keyMissing] at hk
      | some k =>
          rw [copy_run_of_call k fetch s hp (by simpa using hk)]
          cases ht : AppCopy.tryBlock s.config
              (fetch (request k s.prompt AppCopy.systemPrompt)) with
          | error e => exact ⟨hc, hd⟩
          | ok cfg =>
              have hcfg : populated cfg = true := by
                unfold AppCopy.tryBlock at ht
                cases ha : parsedAnswer (fetch (request k s.prompt AppCopy.systemPrompt)) with
                | error e => simp [ha, bind, Except.bind] at ht
                | ok v =>
                    simp only [ha, bind, Except.bind] at ht
                    exact populated_newConfig s.config cfg v hc ht
              exact ⟨hcfg, hcfg⟩

/-- In `src/App copy.jsx` the draft and the applied configuration are fully
populated in every state reached from the initial state by manual edits,
commits, edits of the prompt and completed `handleAiGenerate` calls. -/
theorem copy_configurations_stay_populated (es : List AppCopy.Event) :
    populated (es.foldl AppCopy.step AppCopy.initial).config = true
      ∧ populated (es.foldl AppCopy.step AppCopy.initial).displayConfig = true := by
  suffices h : ∀ s : AppCopy.State, populated s.config = true →
      populated s.displayConfig = true →
      populated (es.foldl AppCopy.step s).config = true
        ∧ populated (es.foldl AppCopy.step s).displayConfig = true from
    h AppCopy.initial (by decide) (by decide)
  induction es with
  | nil => exact fun s hc hd => ⟨hc, hd⟩
  | cons e rest ih =>
      intro s hc hd
      simp only [List.foldl_cons]
      cases e with
      | change name value =>
          exact ih _ (populated_changeUpdater name value s.config hc) hd
      | generate => exact ih _ hc hc
      | prompt value => exact ih _ hc hd
      | aiGenerate apiKey fetch =>
          exact ih _ (populated_copy_handleAiGenerate apiKey fetch s hc hd).1
            (populated_copy_handleAiGenerate apiKey fetch s hc hd).2

set_option maxRecDepth 100000 in
/-- C10 fails in `src/App.jsx`: from the initial state, a completed
`handleAiGenerate` whose payload text is `{"shape":null}` ends without an
error and leaves the displayed configuration with the shape `null`, so the
configuration is not fully populated; on the same answer `src/App copy.jsx`
keeps its prior shape. -/
theorem null_shape_reaches_display :
    populated App.initial.displayConfig = true
      ∧ parsedAnswer (.response 200 nullShapeBody) = .ok (.obj [("shape", .null)])
      ∧ (App.handleAiGenerate (some "k") (fun _ => .response 200 nullShapeBody)
          App.initial).state.error = none
      ∧ Obj.get (App.handleAiGenerate (some "k") (fun _ => .response 200 nullShapeBody)
          App.initial).state.displayConfig "shape" = .null
      ∧ populated (App.handleAiGenerate (some "k") (fun _ => .response 200 nullShapeBody)
          App.initial).state.displayConfig = false
      ∧ Obj.get (AppCopy.handleAiGenerate (some "k")
          (fun _ => .response 200 nullShapeBody) editedState).state.displayConfig "shape"
        = .str "sphere" := by
  decide

/-! ## The bound on nested calls in `JSON.parse` -/

theorem dropWhile_length_le (p : Char → Bool) (l : List Char) :
    (l.dropWhile p).length ≤ l.length :=
  (List.dropWhile_suffix p).length_le

theorem span_length_le (p : Char → Bool) (l : List Char) :
    (l.span p).2.length ≤ l.length := by
  rw [List.span_eq_take_drop]
  exact dropWhile_length_le p l

theorem span_length_lt (p : Char → Bool) (l : List Char) (h : (l.span p).1 ≠ []) :
    (l.span p).2.length < l.length := by
  rw [List.span_eq_take_drop] at h ⊢
  have h1 : (l.takeWhile p ++ l.dropWhile p).length = l.length := by
    rw [List.takeWhile_append_dropWhile]
  rw [List.length_append] at h1
  have h2 : 0 < (l.takeWhile p).length := List.length_pos.2 h
  show (l.dropWhile p).length < l.length
  omega

theorem takeSign_length_le (b : Bool) (l : List Char) :
    (takeSign b l).2.length ≤ l.length := by
  unfold takeSign
  split
  · split
    · simp
    · split <;> simp
  · simp

theorem skipWs_length_le (l : List Char) : (skipWs l).length ≤ l.length :=
  dropWhile_length_le _ l

theorem jsonExponent_length_le (l r : List Char) (e : Int)
    (h : jsonExponent l = some (e, r)) : r.length ≤ l.length := by
  unfold jsonExponent at h
  split at h
  · next c cs =>
      split at h
      · dsimp only at h
        split at h
        · exact absurd h (by simp)
        · simp only [Option.some.injEq, Prod.mk.injEq] at h
          rw [← h.2]
          have h1 := span_length_le Char.isDigit (takeSign true cs).2
          have h2 := takeSign_length_le true cs
          simp only [List.length_cons]
          omega
      · simp only [Option.some.injEq, Prod.mk.injEq] at h
        rw [← h.2]
  · simp only [Option.some.injEq, Prod.mk.injEq] at h
    rw [← h.2]

theorem parseNumber_length_lt (l r : List Char) (n : JNum)
    (h : parseNumber l = some (n, r)) : r.length < l.length := by
  unfold parseNumber at h
  dsimp only at h
  split at h
  · exact absurd h (by simp)
  · next hip =>
      have hne : (List.span Char.isDigit (takeSign false l).2).1 ≠ [] := fun e => hip (Or.inl e)
      have h1 := span_length_lt Char.isDigit (takeSign false l).2 hne
      have h2 := takeSign_length_le false l
      split at h
      · exact absurd h (by simp)
      · next fd r1 hfp =>
          have hr1 : r1.length ≤ (List.span Char.isDigit (takeSign false l).2).2.length := by
            split at hfp
            · next c r hc =>
                split at hfp
                · split at hfp
                  · exact absurd hfp (by simp)
                  · simp only [Option.some.injEq] at hfp
                    have h3 := span_length_le Char.isDigit r
                    rw [hfp] at h3
                    rw [hc]
                    simp only [List.length_cons]
                    simp only at h3
                    omega
                · simp only [Option.some.injEq, Prod.mk.injEq] at hfp
                  rw [← hfp.2]
            · next hc =>
                simp only [Option.some.injEq, Prod.mk.injEq] at hfp
                rw [← hfp.2]
                simp
          split at h
          · exact absurd h (by simp)
          · next e r2 he =>
              have h4 := jsonExponent_length_le r1 r2 e he
              simp only [Option.some.injEq, Prod.mk.injEq] at h
              rw [← h.2]
              omega


theorem parseUnits_length_lt_aux (n : Nat) :
    ∀ (l : List Char) (us : List Nat) (r : List Char), l.length ≤ n →
      parseUnits l = some (us, r) → r.length < l.length := by
  induction n with
  | zero =>
      intro l us r hl h
      have : l = [] := List.length_eq_zero.1 (Nat.le_zero.1 hl)
      subst this
      rw [parseUnits.eq_def] at h
      simp at h
  | succ n ih =>
      intro l us r hl h
      rw [parseUnits.eq_def] at h
      split at h
      · simp at h
      · next c cs =>
          simp only [List.length_cons] at hl ⊢
          split at h
          · simp only [Option.some.injEq, Prod.mk.injEq] at h
            rw [← h.2]
            omega
          · split at h
            · split at h
              · simp at h
              · next e rest =>
                  simp only [List.length_cons] at hl ⊢
                  split at h
                  · split at h
                    · next a b c1 d rest1 =>
                        simp only [List.length_cons] at hl ⊢
                        split at h
                        · next u us1 r1 _ hr =>
                            have := ih rest1 us1 r1 (by omega) hr
                            simp only [Option.some.injEq, Prod.mk.injEq] at h
                            rw [← h.2]
                            omega
                        · simp at h
                    · simp at h
                  · split at h
                    · next u us1 r1 _ hr =>
                        have := ih rest us1 r1 (by omega) hr
                        simp only [Option.some.injEq, Prod.mk.injEq] at h
                        rw [← h.2]
                        omega
                    · simp at h
            · split at h
              · simp at h
              · split at h
                · next us1 r1 hr =>
                    have := ih cs us1 r1 (by omega) hr
                    simp only [Option.some.injEq, Prod.mk.injEq] at h
                    rw [← h.2]
                    omega
                · simp at h

theorem parseString_length_lt (l r : List Char) (s : String)
    (h : parseString l = some (s, r)) : r.length < l.length := by
  unfold parseString at h
  split at h
  · next us r1 hr =>
      simp only [Option.some.injEq, Prod.mk.injEq] at h
      rw [← h.2]
      exact parseUnits_length_lt_aux l.length l us r1 (Nat.le_refl _) hr
  · simp at h


theorem parse_length_lt (f : Nat) :
    (∀ (cs : List Char) (v : JVal) (r : List Char),
        parseValue f cs = some (v, r) → r.length < cs.length)
      ∧ (∀ (cs : List Char) (vs : List JVal) (r : List Char),
        parseElems f cs = some (vs, r) → r.length < cs.length)
      ∧ (∀ (cs : List Char) (kvs : List (String × JVal)) (r : List Char),
        parseMembers f cs = some (kvs, r) → r.length < cs.length) := by
  induction f with
  | zero =>
      refine ⟨?_, ?_, ?_⟩ <;> intro cs v r h
      · rw [parseValue] at h; simp at h
      · rw [parseElems] at h; simp at h
      · rw [parseMembers] at h; simp at h
  | succ f ih =>
      obtain ⟨ihV, ihE, ihM⟩ := ih
      refine ⟨?_, ?_, ?_⟩
      · intro cs v r h
        cases cs with
        | nil => rw [parseValue] at h; simp at h
        | cons c r0 =>
            rw [parseValue] at h
            simp only [List.length_cons]
            split at h
            · split at h
              · next s r1 hs =>
                  have := parseString_length_lt r0 r1 s hs
                  simp only [Option.some.injEq, Prod.mk.injEq] at h
                  rw [← h.2]; omega
              · simp at h
            · split at h
              · have hw := skipWs_length_le r0
                split at h
                · simp at h
                · next c1 r1 hsk =>
                    rw [hsk] at hw
                    simp only [List.length_cons] at hw
                    split at h
                    · simp only [Option.some.injEq, Prod.mk.injEq] at h
                      rw [← h.2]; omega
                    · split at h
                      · next kvs r2 hm =>
                          have := ihM _ _ _ hm
                          simp only [List.length_cons] at this
                          simp only [Option.some.injEq, Prod.mk.injEq] at h
                          rw [← h.2]; omega
                      · simp at h
              · split at h
                · have hw := skipWs_length_le r0
                  split at h
                  · simp at h
                  · next c1 r1 hsk =>
                      rw [hsk] at hw
                      simp only [List.length_cons] at hw
                      split at h
                      · simp only [Option.some.injEq, Prod.mk.injEq] at h
                        rw [← h.2]; omega
                      · split at h
                        · next xs r2 hm =>
                            have := ihE _ _ _ hm
                            simp only [List.length_cons] at this
                            simp only [Option.some.injEq, Prod.mk.injEq] at h
                            rw [← h.2]; omega
                        · simp at h
                · split at h
                  · simp only [Option.some.injEq, Prod.mk.injEq] at h
                    rw [← h.2]
                    simp only [List.drop_succ_cons, List.length_drop]
                    omega
                  · split at h
                    · simp only [Option.some.injEq, Prod.mk.injEq] at h
                      rw [← h.2]
                      simp only [List.drop_succ_cons, List.length_drop]
                      omega
                    · split at h
                      · simp only [Option.some.injEq, Prod.mk.injEq] at h
                        rw [← h.2]
                        simp only [List.drop_succ_cons, List.length_drop]
                        omega
                      · split at h
                        · next n r1 hn =>
                            have := parseNumber_length_lt _ _ _ hn
                            simp only [List.length_cons] at this
                            simp only [Option.some.injEq, Prod.mk.injEq] at h
                            rw [← h.2]; omega
                        · simp at h
      · intro cs vs r h
        rw [parseElems] at h
        split at h
        · simp at h
        · next v r0 hv =>
            have h0 := ihV _ _ _ hv
            have hw := skipWs_length_le r0
            split at h
            · simp at h
            · next c r1 hsk =>
                rw [hsk] at hw
                simp only [List.length_cons] at hw
                split at h
                · split at h
                  · next vs1 r2 he =>
                      have h1 := ihE _ _ _ he
                      have h2 := skipWs_length_le r1
                      simp only [Option.some.injEq, Prod.mk.injEq] at h
                      rw [← h.2]; omega
                  · simp at h
                · split at h
                  · simp only [Option.some.injEq, Prod.mk.injEq] at h
                    rw [← h.2]; omega
                  · simp at h
      · intro cs kvs r h
        cases cs with
        | nil => rw [parseMembers] at h; simp at h
        | cons q r0 =>
            rw [parseMembers] at h
            simp only [List.length_cons]
            split at h
            · split at h
              · simp at h
              · next k r1 hk =>
                  have h0 := parseString_length_lt _ _ _ hk
                  have hw := skipWs_length_le r1
                  split at h
                  · simp at h
                  · next c r2 hsk =>
                      rw [hsk] at hw
                      simp only [List.length_cons] at hw
                      split at h
                      · split at h
                        · simp at h
                        · next v r3 hv =>
                            have h1 := ihV _ _ _ hv
                            have h2 := skipWs_length_le r2
                            have hw3 := skipWs_length_le r3
                            split at h
                            · simp at h
                            · next c1 r4 hsk3 =>
                                rw [hsk3] at hw3
                                simp only [List.length_cons] at hw3
                                split at h
                                · split at h
                                  · next kvs1 r5 hm =>
                                      have h3 := ihM _ _ _ hm
                                      have h4 := skipWs_length_le r4
                                      simp only [Option.some.injEq, Prod.mk.injEq] at h
                                      rw [← h.2]; omega
                                  · simp at h
                                · split at h
                                  · simp only [Option.some.injEq, Prod.mk.injEq] at h
                                    rw [← h.2]; omega
                                  · simp at h
                      · simp at h
            · simp at h


theorem parse_fuel_stable (f : Nat) :
    (∀ cs : List Char, 2 * cs.length + 1 ≤ f → parseValue (f + 1) cs = parseValue f cs)
      ∧ (∀ cs : List Char, 2 * cs.length + 2 ≤ f →
          parseElems (f + 1) cs = parseElems f cs)
      ∧ (∀ cs : List Char, 2 * cs.length + 2 ≤ f →
          parseMembers (f + 1) cs = parseMembers f cs) := by
  induction f with
  | zero =>
      refine ⟨?_, ?_, ?_⟩ <;> intro cs h <;> omega
  | succ f ih =>
      obtain ⟨ihV, ihE, ihM⟩ := ih
      refine ⟨?_, ?_, ?_⟩
      · intro cs hcs
        cases cs with
        | nil => rw [parseValue, parseValue]
        | cons c r0 =>
            simp only [List.length_cons] at hcs
            rw [parseValue, parseValue]
            cases hsk : skipWs r0 with
            | nil => rfl
            | cons c1 r1 =>
                have hw := skipWs_length_le r0
                rw [hsk] at hw
                simp only [List.length_cons] at hw
                dsimp only
                rw [ihM (c1 :: r1) (by simp only [List.length_cons]; omega),
                  ihE (c1 :: r1) (by simp only [List.length_cons]; omega)]
      · intro cs hcs
        rw [parseElems, parseElems, ihV cs (by omega)]
        cases hv : parseValue f cs with
        | none => rfl
        | some p =>
            obtain ⟨v, r⟩ := p
            have h0 := (parse_length_lt f).1 _ _ _ hv
            dsimp only
            cases hsk : skipWs r with
            | nil => rfl
            | cons c r1 =>
                have hw := skipWs_length_le r
                rw [hsk] at hw
                simp only [List.length_cons] at hw
                have hw1 := skipWs_length_le r1
                dsimp only
                rw [ihE (skipWs r1) (by omega)]
      · intro cs hcs
        cases cs with
        | nil => rw [parseMembers, parseMembers]
        | cons q r0 =>
            simp only [List.length_cons] at hcs
            rw [parseMembers, parseMembers]
            cases hk : parseString r0 with
            | none => rfl
            | some p =>
                obtain ⟨k, r1⟩ := p
                have h0 := parseString_length_lt _ _ _ hk
                dsimp only
                cases hsk : skipWs r1 with
                | nil => rfl
                | cons c r2 =>
                    have hw := skipWs_length_le r1
                    rw [hsk] at hw
                    simp only [List.length_cons] at hw
                    have hw2 := skipWs_length_le r2
                    dsimp only
                    rw [ihV (skipWs r2) (by omega)]
                    cases hv : parseValue f (skipWs r2) with
                    | none => rfl
                    | some p =>
                        obtain ⟨v, r3⟩ := p
                        have h1 := (parse_length_lt f).1 _ _ _ hv
                        dsimp only
                        cases hsk3 : skipWs r3 with
                        | nil => rfl
                        | cons c1 r4 =>
                            have hw3 := skipWs_length_le r3
                            rw [hsk3] at hw3
                            simp only [List.length_cons] at hw3
                            have hw4 := skipWs_length_le r4
                            dsimp only
                            rw [ihM (skipWs r4) (by omega)]

/-- The bound on nested calls that `JSON.parse` passes to `parseValue` is
never reached: a larger bound gives the same result. -/
theorem parseValue_fuel_adequate (cs : List Char) (f : Nat)
    (h : 2 * cs.length + 1 ≤ f) :
    parseValue f cs = parseValue (2 * cs.length + 1) cs := by
  induction f with
  | zero => omega
  | succ f ih =>
      by_cases hf : 2 * cs.length + 1 ≤ f
      · rw [(parse_fuel_stable f).1 cs hf, ih hf]
      · have : f + 1 = 2 * cs.length + 1 := by omega
        rw [this]

/-- The result of `JSON.parse` does not depend on the bound: every larger
bound gives the same parse of the text. -/
theorem parse_fuel_adequate (text : String) (f : Nat) (h : 2 * text.length + 2 ≤ f) :
    parseValue f (skipWs text.data)
      = parseValue (2 * text.length + 2) (skipWs text.data) := by
  have hl : (skipWs text.data).length ≤ text.length := skipWs_length_le text.data
  rw [parseValue_fuel_adequate (skipWs text.data) f (by omega),
    parseValue_fuel_adequate (skipWs text.data) (2 * text.length + 2) (by omega)]

/-! ## The expected answer -/

theorem hex4_hexDigit : ∀ n, n < 32 →
    hex4 '0' '0' (hexDigit (n / 16)) (hexDigit (n % 16)) = some n := by
  decide

theorem parseUnits_quote (r : List Char) : parseUnits ('"' :: r) = some ([], r) := by
  rw [parseUnits.eq_def]; simp

theorem parseUnits_escape (e : Char) (u : Nat) (r r1 : List Char) (us : List Nat)
    (he : e ≠ 'u') (hu : unescape e = some u) (h : parseUnits r = some (us, r1)) :
    parseUnits ('\\' :: e :: r) = some (u :: us, r1) := by
  rw [parseUnits.eq_def]; simp [he, hu, h]

theorem parseUnits_hex (a b c d : Char) (u : Nat) (r r1 : List Char) (us : List Nat)
    (hu : hex4 a b c d = some u) (h : parseUnits r = some (us, r1)) :
    parseUnits ('\\' :: 'u' :: a :: b :: c :: d :: r) = some (u :: us, r1) := by
  rw [parseUnits.eq_def]; simp [hu, h]

theorem parseUnits_plain (c : Char) (r r1 : List Char) (us : List Nat)
    (h1 : c ≠ '"') (h2 : c ≠ '\\') (h3 : ¬ c.toNat < 0x20)
    (h : parseUnits r = some (us, r1)) :
    parseUnits (c :: r) = some (utf16Units c ++ us, r1) := by
  rw [parseUnits.eq_def]; simp [h1, h2, h3, h]

theorem utf16Units_small (c : Char) (h : c.toNat < 0x10000) : utf16Units c = [c.toNat] := by
  simp [utf16Units, h]

theorem parseUnits_quoteChars (cs rest : List Char) :
    parseUnits (quoteChars cs ++ '"' :: rest) = some (unitsOf cs, rest) := by
  induction cs with
  | nil => exact parseUnits_quote rest
  | cons c cs ih =>
      simp only [quoteChars, List.append_assoc, unitsOf]
      unfold quoteChar
      split
      · next h =>
          subst h
          exact parseUnits_escape _ _ _ _ _ (by decide) (by decide) ih
      · split
        · next h =>
            subst h
            exact parseUnits_escape _ _ _ _ _ (by decide) (by decide) ih
        · split
          · next h =>
              rw [utf16Units_small c (by omega), h]
              exact parseUnits_escape _ _ _ _ _ (by decide) (by decide) ih
          · split
            · next h =>
                rw [utf16Units_small c (by omega), h]
                exact parseUnits_escape _ _ _ _ _ (by decide) (by decide) ih
            · split
              · next h =>
                  rw [utf16Units_small c (by omega), h]
                  exact parseUnits_escape _ _ _ _ _ (by decide) (by decide) ih
              · split
                · next h =>
                    rw [utf16Units_small c (by omega), h]
                    exact parseUnits_escape _ _ _ _ _ (by decide) (by decide) ih
                · split
                  · next h =>
                      rw [utf16Units_small c (by omega), h]
                      exact parseUnits_escape _ _ _ _ _ (by decide) (by decide) ih
                  · split
                    · next h =>
                        rw [utf16Units_small c (by omega)]
                        exact parseUnits_hex _ _ _ _ _ _ _ _ (hex4_hexDigit _ h) ih
                    · next h1 h2 _ _ _ _ _ h3 =>
                        exact parseUnits_plain c _ _ _ h1 h2 h3 ih


theorem char_range (c : Char) :
    c.toNat < 0xD800 ∨ (0xDFFF < c.toNat ∧ c.toNat < 0x110000) := by
  have h := c.valid
  simpa [Char.toNat, UInt32.isValidChar, Nat.isValidChar] using h

theorem utf16Decode_cons_of_not_high (u : Nat) (us : List Nat)
    (h : ¬ (0xD800 ≤ u ∧ u ≤ 0xDBFF)) :
    utf16Decode (u :: us) = unitChar u :: utf16Decode us := by
  cases us with
  | nil => simp [utf16Decode]
  | cons lo rest =>
      rw [utf16Decode]
      have : ¬ (0xD800 ≤ u ∧ u ≤ 0xDBFF ∧ 0xDC00 ≤ lo ∧ lo ≤ 0xDFFF) := by omega
      simp [this]

theorem utf16Decode_unitsOf (cs : List Char) : utf16Decode (unitsOf cs) = cs := by
  induction cs with
  | nil => simp [unitsOf, utf16Decode]
  | cons c cs ih =>
      have hr := char_range c
      by_cases h : c.toNat < 0x10000
      · simp only [unitsOf, utf16Units_small c h, List.singleton_append]
        rw [utf16Decode_cons_of_not_high _ _ (by omega), ih]
        have : unitChar c.toNat = c := by
          unfold unitChar
          rw [if_neg (by omega)]
          exact Char.ofNat_toNat c
        rw [this]
      · simp only [unitsOf, utf16Units, if_neg h, List.cons_append, List.nil_append]
        rw [utf16Decode, if_pos (by omega), ih]
        have : 0x10000 + (0xD800 + (c.toNat - 0x10000) / 0x400 - 0xD800) * 0x400
            + (0xDC00 + (c.toNat - 0x10000) % 0x400 - 0xDC00) = c.toNat := by omega
        rw [this, Char.ofNat_toNat]

theorem parseString_quoteChars (s : String) (rest : List Char) :
    parseString (quoteChars s.data ++ '"' :: rest) = some (s, rest) := by
  simp [parseString, parseUnits_quoteChars, utf16Decode_unitsOf]


theorem skipWs_cons (c : Char) (r : List Char) (h : isJsonWs c = false) :
    skipWs (c :: r) = c :: r := by
  simp [skipWs, List.dropWhile, h]

theorem parseValue_string (f : Nat) (s : String) (rest : List Char) :
    parseValue (f + 1) ('"' :: (quoteChars s.data ++ '"' :: rest)) = some (.str s, rest) := by
  rw [parseValue]
  simp [parseString_quoteChars]

theorem parseMembers_more (f : Nat) (k v : String) (r : List Char) :
    parseMembers (f + 2) ('"' :: (quoteChars k.data ++ '"' :: ':' :: '"'
        :: (quoteChars v.data ++ '"' :: ',' :: '"' :: r)))
      = match parseMembers (f + 1) ('"' :: r) with
        | some (kvs, r5) => some ((k, .str v) :: kvs, r5)
        | none => none := by
  rw [parseMembers]
  simp only [if_true, parseString_quoteChars]
  rw [skipWs_cons _ _ (by decide)]
  simp only [if_true]
  rw [skipWs_cons _ _ (by decide), parseValue_string]
  simp only []
  rw [skipWs_cons _ _ (by decide)]
  simp only [if_true]
  rw [skipWs_cons _ _ (by decide)]

theorem parseMembers_last (f : Nat) (k v : String) (r : List Char) :
    parseMembers (f + 2) ('"' :: (quoteChars k.data ++ '"' :: ':' :: '"'
        :: (quoteChars v.data ++ '"' :: '}' :: r)))
      = some ([(k, .str v)], r) := by
  rw [parseMembers]
  simp only [if_true, parseString_quoteChars]
  rw [skipWs_cons _ _ (by decide)]
  simp only [if_true]
  rw [skipWs_cons _ _ (by decide), parseValue_string]
  simp only []
  rw [skipWs_cons _ _ (by decide)]
  simp


theorem stringifyVal_answerObject (s c m : String) :
    stringifyVal (answerObject s c m)
      = '{' :: '"' :: (quoteChars "shape".data ++ '"' :: ':' :: '"'
          :: (quoteChars s.data ++ '"' :: ',' :: '"'
          :: (quoteChars "color".data ++ '"' :: ':' :: '"'
          :: (quoteChars c.data ++ '"' :: ',' :: '"'
          :: (quoteChars "material".data ++ '"' :: ':' :: '"'
          :: (quoteChars m.data ++ '"' :: '}' :: [])))))) := by
  simp [answerObject, stringifyVal, stringifyMembers, quote]

theorem parseValue_answerObject (f : Nat) (s c m : String) :
    parseValue (f + 5) (stringifyVal (answerObject s c m))
      = some (answerObject s c m, []) := by
  rw [stringifyVal_answerObject, parseValue]
  dsimp only
  rw [if_neg (by decide), if_pos rfl, skipWs_cons _ _ (by decide)]
  dsimp only
  rw [if_neg (by decide), parseMembers_more, parseMembers_more, parseMembers_last]
  rfl

theorem parse_stringify_answerObject (s c m : String) :
    JSON.parse (JSON.stringify (answerObject s c m)) = .ok (answerObject s c m) := by
  have hlen : ∃ f, 2 * (JSON.stringify (answerObject s c m)).length + 2 = f + 5 := by
    refine ⟨2 * (JSON.stringify (answerObject s c m)).length + 2 - 5, ?_⟩
    have : 2 ≤ (JSON.stringify (answerObject s c m)).length := by
      simp [JSON.stringify, stringifyVal_answerObject, String.length]
    omega
  obtain ⟨f, hf⟩ := hlen
  have hws : skipWs (JSON.stringify (answerObject s c m)).data
      = stringifyVal (answerObject s c m) := by
    simp only [JSON.stringify]
    rw [stringifyVal_answerObject]
    exact skipWs_cons _ _ (by decide)
  unfold JSON.parse
  rw [hf, hws, parseValue_answerObject]
  rfl


theorem spread_answerObject (o : Obj) (s c m : String) :
    Obj.spread o (answerObject s c m)
      = Obj.set "material" (.str m) (Obj.set "color" (.str c) (Obj.set "shape" (.str s) o)) :=
  rfl

/-- C3: in `src/App.jsx`, when the response has a success status and the
text at `candidates[0].content.parts[0].text` is the JSON encoding of the
object with the keys `shape`, `color` and `material` holding the strings `s`,
`c` and `m` (any strings, so in particular non-empty ones), `handleAiGenerate`
ends without an error and the displayed configuration has shape `s`, color
`c`, material `m` and the scale it had before the call. -/
theorem answer_is_displayed (k : String) (fetch : Request → FetchOutcome) (t : App.State)
    (status : Nat) (body : String) (result : JVal) (s c m : String)
    (ht : t.prompt ≠ "") (hk : keyMissing (some k) = false)
    (hf : fetch (request k t.prompt App.systemPrompt) = .response status body)
    (hst : statusOk status = true) (hj : responseJson body = .ok result)
    (hp : payloadText result = .ok (.str (JSON.stringify (answerObject s c m)))) :
    (App.handleAiGenerate (some k) fetch t).state.error = none
      ∧ Obj.get (App.handleAiGenerate (some k) fetch t).state.displayConfig "shape" = .str s
      ∧ Obj.get (App.handleAiGenerate (some k) fetch t).state.displayConfig "color" = .str c
      ∧ Obj.get (App.handleAiGenerate (some k) fetch t).state.displayConfig "material"
          = .str m
      ∧ Obj.get (App.handleAiGenerate (some k) fetch t).state.displayConfig "scale"
          = Obj.get t.displayConfig "scale" := by
  have htx : (JVal.str (JSON.stringify (answerObject s c m))).truthy = true := by
    have hne : JSON.stringify (answerObject s c m) ≠ "" := by
      intro h
      have hd := congrArg String.data h
      simp only [JSON.stringify] at hd
      rw [stringifyVal_answerObject] at hd
      exact List.cons_ne_nil _ _ hd
    simp [JVal.truthy, hne]
  have hpa := parsedAnswer_of_text status body result _ hst hj hp htx
  have hpo : JSON.parseOf (.str (JSON.stringify (answerObject s c m)))
      = JSON.parse (JSON.stringify (answerObject s c m)) := rfl
  rw [hpo, parse_stringify_answerObject] at hpa
  rw [app_run_of_call k fetch t ht hk, hf, hpa]
  dsimp only
  rw [spread_answerObject]
  refine ⟨rfl, ?_, ?_, ?_, ?_⟩
  · rw [Obj.get_set_other _ _ _ _ (by decide), Obj.get_set_other _ _ _ _ (by decide),
      Obj.get_set_same]
  · rw [Obj.get_set_other _ _ _ _ (by decide), Obj.get_set_same]
  · rw [Obj.get_set_same]
  · rw [Obj.get_set_other _ _ _ _ (by decide), Obj.get_set_other _ _ _ _ (by decide),
      Obj.get_set_other _ _ _ _ (by decide)]

set_option maxRecDepth 100000 in
/-- C3 at the example of the specification: the payload text with shape
`sphere`, color `#ff0000` and material `metal`, on the initial state. -/
theorem answer_is_displayed_witness :
    (App.handleAiGenerate (some "k") (fun _ => .response 200 sphereBody)
        App.initial).state.error = none
      ∧ Obj.get (App.handleAiGenerate (some "k") (fun _ => .response 200 sphereBody)
        App.initial).state.displayConfig "shape" = .str "sphere"
      ∧ Obj.get (App.handleAiGenerate (some "k") (fun _ => .response 200 sphereBody)
        App.initial).state.displayConfig "color" = .str "#ff0000"
      ∧ Obj.get (App.handleAiGenerate (some "k") (fun _ => .response 200 sphereBody)
        App.initial).state.displayConfig "material" = .str "metal"
      ∧ Obj.get (App.handleAiGenerate (some "k") (fun _ => .response 200 sphereBody)
        App.initial).state.displayConfig "scale" = .num (.fin 1 0) :=
  answer_is_displayed "k" (fun _ => .response 200 sphereBody) App.initial 200 sphereBody
    (.obj [("candidates", .arr [.obj [("content", .obj [("parts",
      .arr [.obj [("text", .str
        r##"{"shape":"sphere","color":"#ff0000","material":"metal"}"##)]])])]])])
    "sphere" "#ff0000" "metal" (by decide) (by decide) rfl (by decide) (by decide)
    (by decide)


end FormiAI
